import Mathlib

/-! Spotter v.2 timer firmware (`spotter.c`, r10): a shallow embedding

The firmware is a single C translation unit for an ATtiny2313.  The embedding
below follows the source function by function.

* 8-bit registers and `unsigned char` variables are natural numbers; every
  store that C would truncate goes through `u8` (`% 256`), 16-bit values
  through `u16` (`% 65536`).  On AVR `int` is 16 bits wide.
* `volatile` input registers are read from an environment: `Env.pind k` is
  the value returned by the `k`-th read of `PIND`, `Env.pinb k` the `k`-th read
  of `PINB`, `Env.ee_ready k` the `k`-th answer of `eeprom_is_ready()`.  The
  machine state carries the three read cursors.
* Busy-wait loops (`while(cond) continue;`) take a bound `fuel` on the number
  of polls and yield `none` when the condition never became false within it.
  Counted loops carry the number of values of their counter as bound.
* The time-line of the main thread is recorded as a trace of events
  (`_delay_ms` calls and the two writes of the welder output).
* The main thread (`main`) and the timer overflow handler are modelled as
  separate sequential functions on the same state; their interleaving is not
  modelled.  Data direction and timer registers, and the wait
  `eeprom_busy_wait()`, have no effect on the modelled state and are left out.
-/

namespace Spotter

/-! ## Constants (lines 26-74) -/

abbrev DELAY_DEFAULT : Nat := 50
abbrev UNITS_DEFAULT : Nat := 1
abbrev OUT_SIGNAL_BIT : Nat := 0
abbrev BTN_PLUS_BIT : Nat := 1
abbrev BTN_MINUS_BIT : Nat := 3
abbrev BTN_MODE_BIT : Nat := 2
abbrev BTN_ACTION_BIT : Nat := 4
abbrev BTN_CYCLE_DELAY : Nat := 1
abbrev BTN_1ST_DELAY : Nat := 250
abbrev BTN_2ST_DELAY : Nat := 50
abbrev BTN_1ST_STEPS : Nat := 10
abbrev BTN_RELEASE_HOLD : Nat := BTN_CYCLE_DELAY * 250
abbrev LED_POLARITY : Nat := 0
abbrev LED_COMMON_DIG1 : Nat := 6
abbrev LED_COMMON_DIG2 : Nat := 5
abbrev ZCROSSDETECT_BIT : Nat := 7

/-- Truncation of a value stored into an `unsigned char` or an 8-bit register. -/
def u8 (n : Nat) : Nat := n % 256

/-- Truncation of a value stored into an `unsigned short` / converted to
`unsigned int` (16 bits on AVR). -/
def u16 (n : Nat) : Nat := n % 65536

/-- The C operator `~` on a promoted (16-bit `int`) operand, as a bit pattern. -/
def not16 (n : Nat) : Nat := 65535 ^^^ u16 n

/-- The C operator `!` on a scalar. -/
def lnot (n : Nat) : Nat := if n = 0 then 1 else 0

/-- Segment patterns of the decimal digits, `digit[]` (lines 77-78). -/
def digit : List Nat :=
  [0b0111111, 0b0000110, 0b1011011, 0b1001111, 0b1100110, 0b1101101,
   0b1111101, 0b0000111, 0b1111111, 0b1101111]

/-- The table read `digit[i]`.  An index past the table is undefined in C;
the embedding reports `0` there. -/
def digitAt (i : Nat) : Nat := digit.getD i 0

/-! ## Machine state and environment -/

/-- Observable events of the main thread, in program order. -/
inductive Event where
  | delay (ms : Nat)
  | outputOn
  | outputOff
  deriving DecidableEq, Repr

/-- The values delivered by the volatile inputs, indexed by read number. -/
structure Env where
  pind : Nat → Nat
  pinb : Nat → Nat
  ee_ready : Nat → Bool

/-- The registers, EEPROM bytes, globals and `main` locals of the program,
together with the read cursors and the event trace. -/
structure State where
  PORTB : Nat
  PORTD : Nat
  saved_value : Nat
  saved_step : Nat
  section1 : Nat
  section2 : Nat
  auto_mode : Nat
  digselect : Nat
  irq : Bool
  units : Nat
  units_ms : Nat
  spot_delay : Nat
  btn_1st_delay_cnt : Nat
  btn_2st_delay_cnt : Nat
  btn_1st_steps_cnt : Nat
  btn_2st_delay_mode : Nat
  nD : Nat
  nB : Nat
  nE : Nat
  trace : List Event
  deriving DecidableEq, Repr

/-- The call `_delay_ms(ms)`. -/
def delay_ms (ms : Nat) (s : State) : State :=
  { s with trace := s.trace ++ [Event.delay ms] }

/-- One read of the 8-bit input register `PIND`. -/
def readPIND (env : Env) (s : State) : Nat × State :=
  (u8 (env.pind s.nD), { s with nD := s.nD + 1 })

/-! ## Global functions (lines 90-128) -/

/-- The loop of `saved()` (lines 92-95), from `offset` on. -/
def savedLoop : Nat → Nat → State → State
  | 0, _, s => s
  | fuel + 1, offset, s =>
    if offset < 6 then
      savedLoop fuel (u8 (offset + 1)) (delay_ms 50 { s with section1 := u8 (1 <<< offset) })
    else s

/-- The function `saved()` (lines 90-96): running light after saving. -/
def saved (s : State) : State := savedLoop 7 0 s

/-- The function `ZeroCrossWait()` (lines 98-100), on the value read from
`PINB`. -/
def ZeroCrossWait (pinb : Nat) : Nat := lnot ((pinb >>> ZCROSSDETECT_BIT) &&& 1)

/-- Where `out_on()` stands: inside its polling loop or past it. -/
structure OutOnCfg where
  polling : Bool
  PORTD : Nat
  irq : Bool
  nB : Nat
  deriving DecidableEq, Repr

/-- Entry of `out_on()`: `cli()` (line 103), then the loop of line 104. -/
def out_on_enter (s : State) : OutOnCfg :=
  { polling := true, PORTD := s.PORTD, irq := false, nB := s.nB }

/-- One evaluation of the loop condition of line 104; when it is false the
output bit is set and interrupts are enabled again (lines 105-106). -/
def out_on_poll (pinb : Nat → Nat) (c : OutOnCfg) : OutOnCfg :=
  if c.polling then
    if ZeroCrossWait (u8 (pinb c.nB)) ≠ 0 then
      { c with nB := c.nB + 1 }
    else
      { polling := false, PORTD := u8 (c.PORTD ||| (1 <<< OUT_SIGNAL_BIT)), irq := true,
        nB := c.nB + 1 }
  else c

/-- The configuration of `out_on()` after `n` polls. -/
def out_on_polls (pinb : Nat → Nat) : Nat → OutOnCfg → OutOnCfg
  | 0, c => c
  | n + 1, c => out_on_polls pinb n (out_on_poll pinb c)

/-- The function `out_on()` (lines 102-107) with at most `fuel` polls. -/
def out_on (fuel : Nat) (env : Env) (s : State) : Option State :=
  let c := out_on_polls env.pinb fuel (out_on_enter s)
  if c.polling then none
  else some { s with PORTD := c.PORTD, irq := c.irq, nB := c.nB,
                     trace := s.trace ++ [Event.outputOn] }

/-- The function `out_off()` (lines 109-111). -/
def out_off (s : State) : State :=
  { s with PORTD := u8 (s.PORTD &&& not16 (1 <<< OUT_SIGNAL_BIT)),
           trace := s.trace ++ [Event.outputOff] }

/-- The function `ButtonPressed(port, bit)` (lines 113-115). -/
def ButtonPressed (port : Nat) (bit : Nat) : Nat := lnot ((port >>> bit) &&& 1)

/-- The function `ChangeDelay(value)` (lines 117-128). -/
def ChangeDelay (value : Nat) (s : State) : State :=
  let value := if value > 99 then 99 else value
  if value ≠ 0 then
    { s with section1 := digitAt (value % 10), section2 := digitAt (value / 10) }
  else
    { s with section1 := digitAt 0, section2 := digitAt 0 }

/-- The loop `while(ButtonPressed(PIND, bit)) continue;`: the read cursor after
the first read that shows the button released, `none` when all `fuel` reads
showed it pressed. -/
def waitRelease (pind : Nat → Nat) (bit : Nat) : Nat → Nat → Option Nat
  | 0, _ => none
  | fuel + 1, n =>
    if ButtonPressed (u8 (pind n)) bit ≠ 0 then waitRelease pind bit fuel (n + 1)
    else some (n + 1)

/-! ## Interrupts (lines 132-193) -/

/-- The statement `reg |= 1 << bit` on an 8-bit register. -/
def setBit (reg bit : Nat) : Nat := u8 (reg ||| (1 <<< bit))

/-- The statement `reg &= ~(1 << bit)` on an 8-bit register. -/
def clearBit (reg bit : Nat) : Nat := u8 (reg &&& not16 (1 <<< bit))

/-- The pair `LED_DATA_PORT &= 0b10000000; LED_DATA_PORT |= pattern;`, where
`pattern` is the promoted 16-bit value on the right. -/
def loadData (portb pattern : Nat) : Nat := u8 (u8 (portb &&& 0b10000000) ||| pattern)

/-- The handler `ISR(TIMER0_OVF_vect)` (lines 134-193), for either value of
the build-time constant `LED_POLARITY`. -/
def TIMER0_OVF_vect (polarity : Nat) (s : State) : State :=
  let s :=
    if s.auto_mode ≠ 0 then
      if polarity ≠ 0 then
        if s.digselect = 1 then
          { s with PORTD := clearBit (setBit s.PORTD LED_COMMON_DIG2) LED_COMMON_DIG1,
                   PORTB := loadData s.PORTB s.section1 }
        else if s.digselect = 2 then
          { s with PORTD := clearBit (setBit s.PORTD LED_COMMON_DIG1) LED_COMMON_DIG2,
                   PORTB := loadData s.PORTB s.section2 }
        else s
      else
        if s.digselect = 1 then
          { s with PORTD := setBit (clearBit s.PORTD LED_COMMON_DIG2) LED_COMMON_DIG1,
                   PORTB := loadData s.PORTB (not16 s.section1) }
        else if s.digselect = 2 then
          { s with PORTD := setBit (clearBit s.PORTD LED_COMMON_DIG1) LED_COMMON_DIG2,
                   PORTB := loadData s.PORTB (not16 s.section2) }
        else s
    else
      if polarity ≠ 0 then
        let s := { s with PORTB := loadData s.PORTB 0b01000000 }
        if s.digselect = 1 then
          { s with PORTD := clearBit (setBit s.PORTD LED_COMMON_DIG2) LED_COMMON_DIG1 }
        else if s.digselect = 2 then
          { s with PORTD := clearBit (setBit s.PORTD LED_COMMON_DIG1) LED_COMMON_DIG2 }
        else s
      else
        let s := { s with PORTB := loadData s.PORTB (not16 0b01000000) }
        if s.digselect = 1 then
          { s with PORTD := setBit (clearBit s.PORTD LED_COMMON_DIG2) LED_COMMON_DIG1 }
        else if s.digselect = 2 then
          { s with PORTD := setBit (clearBit s.PORTD LED_COMMON_DIG1) LED_COMMON_DIG2 }
        else s
  { s with digselect := if s.digselect = 1 then 2 else 1, irq := true }

/-! ## Startup (lines 197-300) -/

/-- The machine after reset: registers cleared, globals at their initialisers
(lines 84-86 and 133), the two EEPROM bytes as they were persisted. -/
def resetState (saved_value saved_step : Nat) : State :=
  { PORTB := 0, PORTD := 0, saved_value := saved_value, saved_step := saved_step,
    section1 := 0, section2 := 0, auto_mode := 1, digselect := 1, irq := false,
    units := 0, units_ms := 0, spot_delay := 0,
    btn_1st_delay_cnt := 0, btn_2st_delay_cnt := 0, btn_1st_steps_cnt := 0,
    btn_2st_delay_mode := 0, nD := 0, nB := 0, nE := 0, trace := [] }

/-- Lines 207-212 and 219: the pull-ups, then `sei()`. -/
def pullUps (s : State) : State :=
  let d := u8 (s.PORTD ||| (1 <<< BTN_ACTION_BIT))
  let d := u8 (d ||| (1 <<< BTN_MODE_BIT))
  let d := u8 (d ||| (1 <<< BTN_PLUS_BIT))
  let d := u8 (d ||| (1 <<< BTN_MINUS_BIT))
  { s with PORTD := d, PORTB := u8 (s.PORTB ||| (1 <<< ZCROSSDETECT_BIT)), irq := true }

/-- Lines 221-222: the resolution is read from `saved_step` and validated. -/
def loadUnits (s : State) : State :=
  let units := u8 s.saved_step
  { s with units := if units > 2 ∨ units < 1 then UNITS_DEFAULT else units }

/-- The loop of lines 229-239; yields the final `enter_setup`. -/
def startupSelect (env : Env) : Nat → Nat → Nat → Nat → Nat → State → Nat × State
  | 0, _, enter_setup, _, _, s => (enter_setup, s)
  | fuel + 1, i, enter_setup, tmp_data, run_fire_offset, s =>
    if i < 40 ∧ enter_setup = 0 then
      let s := delay_ms 25 s
      let s := { s with section1 := tmp_data, section2 := tmp_data }
      let tmp_data := u8 (1 <<< run_fire_offset)
      let run_fire_offset := if run_fire_offset < 5 then u8 (run_fire_offset + 1) else 0
      let (d, s) := readPIND env s
      let enter_setup := if ButtonPressed d BTN_MODE_BIT ≠ 0 then 1 else enter_setup
      startupSelect env fuel (u8 (i + 1)) enter_setup tmp_data run_fire_offset s
    else (enter_setup, s)

/-- The loop of lines 256-257: wait until neither adjustment button reads
pressed (the minus button is read only when plus reads released). -/
def waitAdjustRelease (pind : Nat → Nat) : Nat → Nat → Option Nat
  | 0, _ => none
  | fuel + 1, n =>
    if ButtonPressed (u8 (pind n)) BTN_PLUS_BIT ≠ 0 then waitAdjustRelease pind fuel (n + 1)
    else if ButtonPressed (u8 (pind (n + 1))) BTN_MINUS_BIT ≠ 0 then
      waitAdjustRelease pind fuel (n + 2)
    else some (n + 2)

/-- The condition of line 252, with its short-circuit evaluation. -/
def adjustPressed (env : Env) (s : State) : Bool × State :=
  let (d, s) := readPIND env s
  if ButtonPressed d BTN_PLUS_BIT ≠ 0 then (true, s)
  else
    let (d, s) := readPIND env s
    (ButtonPressed d BTN_MINUS_BIT ≠ 0, s)

/-- The statement of line 263 (and the wait of line 264, which changes nothing
that is modelled). -/
def storeStep (env : Env) (s : State) : State :=
  if env.ee_ready s.nE then { s with saved_step := u8 s.units, nE := s.nE + 1 }
  else { s with nE := s.nE + 1 }

/-- Lines 253-254: the resolution is toggled between 1 and 2. -/
def toggleUnits (s : State) : State :=
  { s with units := if s.units = 1 then 2 else if s.units = 2 then 1 else s.units }

/-- Lines 252-258: when an adjustment button reads pressed, toggle the
resolution and wait for the release of both buttons. -/
def adjustStep (fuel : Nat) (env : Env) (s : State) : Option State :=
  let (adj, s) := adjustPressed env s
  if adj then
    (waitAdjustRelease env.pind fuel s.nD).map (fun n => { toggleUnits s with nD := n })
  else some s

/-- Lines 261-265: wait for the release of the mode button, store the
resolution, play the running light. -/
def confirmSetup (fuel : Nat) (env : Env) (s : State) : Option State :=
  (waitRelease env.pind BTN_MODE_BIT fuel s.nD).map
    (fun n => saved (storeStep env { s with nD := n }))

/-- The setup menu, the loop of lines 248-271. -/
def setupMenu (env : Env) : Nat → State → Option State
  | 0, _ => none
  | fuel + 1, s =>
    (adjustStep fuel env (delay_ms BTN_CYCLE_DELAY s)).bind (fun s =>
      let (d, s) := readPIND env s
      if ButtonPressed d BTN_MODE_BIT ≠ 0 then confirmSetup fuel env s
      else setupMenu env fuel { s with section2 := 0b1111000, section1 := digitAt s.units })

/-- The splash of lines 274-285. -/
def splash (s : State) : State :=
  let s := delay_ms 1000 { s with section2 := digitAt 1, section1 := digitAt 0 }
  let s := delay_ms 1000 { s with section2 := 0b1111000, section1 := digitAt s.units }
  delay_ms 500 { s with section2 := 0, section1 := 0 }

/-- Lines 288-290: milliseconds per unit of the timing value. -/
def unitsMs (s : State) : State :=
  { s with units_ms := if s.units = 1 then 10 else if s.units = 2 then 100 else 10 }

/-- Lines 292-293: the timing value is read from `saved_value` and validated. -/
def loadDelay (s : State) : State :=
  let spot_delay := u8 s.saved_value
  { s with spot_delay := if spot_delay > 99 ∨ spot_delay < 1 then DELAY_DEFAULT else spot_delay }

/-- Lines 242-286: the setup menu when `enter_setup` is set, the splash
otherwise. -/
def setupOrSplash (fuel : Nat) (env : Env) (enter_setup : Nat) (s : State) : Option State :=
  if enter_setup ≠ 0 then
    (waitRelease env.pind BTN_MODE_BIT fuel s.nD).bind (fun n =>
      setupMenu env fuel (delay_ms (BTN_CYCLE_DELAY * BTN_1ST_DELAY) { s with nD := n }))
  else some (splash s)

/-- Lines 288-300: the multiplier, the timing value, its display, and the
repeat counters at zero. -/
def enterLoop (s : State) : State :=
  let s := loadDelay (unitsMs s)
  let s := ChangeDelay s.spot_delay s
  { s with btn_1st_delay_cnt := 0, btn_2st_delay_cnt := 0, btn_1st_steps_cnt := 0,
           btn_2st_delay_mode := 0 }

/-- The function `main` up to the entry of `while(1)` (lines 207-300). -/
def startup (fuel : Nat) (env : Env) (s : State) : Option State :=
  let r := startupSelect env 41 0 0 0 0 (loadUnits (pullUps s))
  (setupOrSplash fuel env r.1 r.2).map enterLoop

/-! ## The main loop (lines 302-363) -/

/-- The timed pulse loop of lines 308-309: `i` is the `unsigned short`
counter, `bound` the value of `spot_delay * units_ms` it is compared with. -/
def pulseLoop (bound : Nat) : Nat → Nat → State → Option State
  | 0, _, _ => none
  | fuel + 1, i, s =>
    if i < bound then pulseLoop bound fuel (u16 (i + 1)) (delay_ms 1 s)
    else some s

/-- The statement of line 318 (and the wait of line 319, which changes nothing
that is modelled). -/
def storeValue (env : Env) (s : State) : State :=
  if env.ee_ready s.nE then { s with saved_value := u8 s.spot_delay, nE := s.nE + 1 }
  else { s with nE := s.nE + 1 }

/-- Lines 307-312: in auto mode the timed pulse, then `out_off()`.  The
`unsigned short` counter takes at most 65536 values, which bounds the loop. -/
def timedPulse (s : State) : Option State :=
  if s.auto_mode ≠ 0 then
    (pulseLoop (u16 (s.spot_delay * s.units_ms)) 65536 0 s).map out_off
  else some s

/-- Lines 314-324: wait for the release of the action button, `out_off()`,
store the timing value, debounce. -/
def afterPulse (fuel : Nat) (env : Env) (s : State) : Option State := do
  let n ← waitRelease env.pind BTN_ACTION_BIT fuel s.nD
  let s := out_off { s with nD := n }
  let s := storeValue env s
  let s := delay_ms BTN_RELEASE_HOLD s
  let n ← waitRelease env.pind BTN_ACTION_BIT fuel s.nD
  some (delay_ms (BTN_CYCLE_DELAY * 10) { s with nD := n })

/-- The body of `if(ButtonPressed(BTN_ACTION_PIN, BTN_ACTION_BIT))`,
lines 306-324. -/
def actionBranch (fuel : Nat) (env : Env) (s : State) : Option State := do
  let s ← out_on fuel env s
  let s ← timedPulse s
  afterPulse fuel env s

/-- The condition of line 327. -/
def threshold (s : State) : Bool :=
  s.btn_1st_delay_cnt = BTN_1ST_DELAY ||
    (s.btn_2st_delay_cnt = BTN_2ST_DELAY && s.btn_2st_delay_mode ≠ 0)

/-- Lines 336-337 (and 345-346): count a step or switch to the fast stage. -/
def countStep (s : State) : State :=
  if s.btn_1st_steps_cnt = BTN_1ST_STEPS then { s with btn_2st_delay_mode := 1 }
  else { s with btn_1st_steps_cnt := u8 (s.btn_1st_steps_cnt + 1) }

/-- Lines 332-333: the mode button. -/
def modeStep (env : Env) (s : State) : State :=
  let (d, s) := readPIND env s
  if ButtonPressed d BTN_MODE_BIT ≠ 0 then { s with auto_mode := lnot s.auto_mode } else s

/-- Lines 335-342: the plus button. -/
def plusStep (env : Env) (s : State) : State :=
  let (d, s) := readPIND env s
  if ButtonPressed d BTN_PLUS_BIT ≠ 0 ∧ s.auto_mode ≠ 0 then
    let s := countStep s
    if s.spot_delay + 1 ≤ 99 then
      let s := { s with spot_delay := u8 (s.spot_delay + 1) }
      ChangeDelay s.spot_delay s
    else s
  else s

/-- Lines 344-351: the minus button.  The test of line 347 is made on `int`;
the decrement is reached only with `spot_delay >= 2`. -/
def minusStep (env : Env) (s : State) : State :=
  let (d, s) := readPIND env s
  if ButtonPressed d BTN_MINUS_BIT ≠ 0 ∧ s.auto_mode ≠ 0 then
    let s := countStep s
    if (s.spot_delay : Int) - 1 ≥ 1 then
      let s := { s with spot_delay := u8 (s.spot_delay - 1) }
      ChangeDelay s.spot_delay s
    else s
  else s

/-- Lines 353-357: both adjustment buttons released (the second read is made
only when the first shows the plus button released). -/
def releaseStep (env : Env) (s : State) : State :=
  let (d, s) := readPIND env s
  if ButtonPressed d BTN_PLUS_BIT = 0 then
    let (d, s) := readPIND env s
    if ButtonPressed d BTN_MINUS_BIT = 0 then
      { s with btn_1st_steps_cnt := 0, btn_2st_delay_mode := 0, btn_2st_delay_cnt := 0 }
    else s
  else s

/-- The statement of lines 327-362: the repeat-rate logic. -/
def repeatLogic (env : Env) (s : State) : State :=
  if threshold s then
    let s := { s with btn_1st_delay_cnt := 0, btn_2st_delay_cnt := 0 }
    releaseStep env (minusStep env (plusStep env (modeStep env s)))
  else
    if s.btn_2st_delay_mode = 0 then
      { s with btn_1st_delay_cnt := u8 (s.btn_1st_delay_cnt + 1) }
    else
      { s with btn_2st_delay_cnt := u8 (s.btn_2st_delay_cnt + 1) }

/-- Lines 305-325: the action button is read once; when it reads pressed the
action branch runs. -/
def actionStep (fuel : Nat) (env : Env) (s : State) : Option State :=
  let (d, s) := readPIND env s
  if ButtonPressed d BTN_ACTION_BIT ≠ 0 then actionBranch fuel env s else some s

/-- One iteration of `while(1)` (lines 303-362). -/
def mainIter (fuel : Nat) (env : Env) (s : State) : Option State :=
  (actionStep fuel env (delay_ms BTN_CYCLE_DELAY s)).map (repeatLogic env)

/-- The first `n` iterations of `while(1)`. -/
def mainLoop (fuel : Nat) (env : Env) : Nat → State → Option State
  | 0, s => some s
  | n + 1, s => (mainIter fuel env s).bind (mainLoop fuel env n)

/-- The function `main`, stopped after `n` iterations of `while(1)`. -/
def main (fuel : Nat) (env : Env) (n : Nat) (s : State) : Option State :=
  (startup fuel env s).bind (mainLoop fuel env n)

/-! ## Table lookups with the bounds check made explicit

The functions above read the digit table through `digitAt`, which is total.
The variants below follow the same source lines but fail with the offending
index, `Except.error i`, as soon as a lookup `digit[i]` falls outside the
table; the inner `Option` is `none` when the reads of a wait loop run out. -/

/-- A lookup `digit[i]`, failing when `i` is not a position of the table. -/
def digitChecked (i : Nat) : Except Nat Nat :=
  match digit[i]? with
  | some p => Except.ok p
  | none => Except.error i

/-- The function `ChangeDelay(value)` (lines 117-128) with checked lookups. -/
def ChangeDelayChecked (value : Nat) (s : State) : Except Nat State :=
  let value := if value > 99 then 99 else value
  if value ≠ 0 then
    match digitChecked (value % 10) with
    | Except.error i => Except.error i
    | Except.ok a =>
      match digitChecked (value / 10) with
      | Except.error i => Except.error i
      | Except.ok b => Except.ok { s with section1 := a, section2 := b }
  else
    match digitChecked 0 with
    | Except.error i => Except.error i
    | Except.ok a =>
      match digitChecked 0 with
      | Except.error i => Except.error i
      | Except.ok b => Except.ok { s with section1 := a, section2 := b }

/-- The setup menu (lines 248-271) with the lookup of line 270 checked. -/
def setupMenuChecked (env : Env) : Nat → State → Except Nat (Option State)
  | 0, _ => Except.ok none
  | fuel + 1, s =>
    match adjustStep fuel env (delay_ms BTN_CYCLE_DELAY s) with
    | none => Except.ok none
    | some s =>
      let (d, s) := readPIND env s
      if ButtonPressed d BTN_MODE_BIT ≠ 0 then Except.ok (confirmSetup fuel env s)
      else
        match digitChecked s.units with
        | Except.error i => Except.error i
        | Except.ok p =>
          setupMenuChecked env fuel { s with section2 := 0b1111000, section1 := p }

/-- The splash (lines 274-285) with the lookups of lines 275 and 280 checked. -/
def splashChecked (s : State) : Except Nat State :=
  match digitChecked 1 with
  | Except.error i => Except.error i
  | Except.ok a =>
    match digitChecked 0 with
    | Except.error i => Except.error i
    | Except.ok b =>
      let s := delay_ms 1000 { s with section2 := a, section1 := b }
      match digitChecked s.units with
      | Except.error i => Except.error i
      | Except.ok c =>
        let s := delay_ms 1000 { s with section2 := 0b1111000, section1 := c }
        Except.ok (delay_ms 500 { s with section2 := 0, section1 := 0 })

/-- Lines 242-286 with checked lookups: the setup menu when `enter_setup` is
set, the splash otherwise. -/
def setupOrSplashChecked (fuel : Nat) (env : Env) (enter_setup : Nat) (s : State) :
    Except Nat (Option State) :=
  if enter_setup ≠ 0 then
    match waitRelease env.pind BTN_MODE_BIT fuel s.nD with
    | none => Except.ok none
    | some n =>
      setupMenuChecked env fuel (delay_ms (BTN_CYCLE_DELAY * BTN_1ST_DELAY) { s with nD := n })
  else
    match splashChecked s with
    | Except.error i => Except.error i
    | Except.ok s => Except.ok (some s)

/-- The function `main` up to the entry of `while(1)` (lines 207-300) with
checked lookups. -/
def startupChecked (fuel : Nat) (env : Env) (s : State) : Except Nat (Option State) :=
  let r := startupSelect env 41 0 0 0 0 (loadUnits (pullUps s))
  match setupOrSplashChecked fuel env r.1 r.2 with
  | Except.error i => Except.error i
  | Except.ok none => Except.ok none
  | Except.ok (some s) =>
    let s := loadDelay (unitsMs s)
    match ChangeDelayChecked s.spot_delay s with
    | Except.error i => Except.error i
    | Except.ok s =>
      Except.ok (some { s with btn_1st_delay_cnt := 0, btn_2st_delay_cnt := 0,
                               btn_1st_steps_cnt := 0, btn_2st_delay_mode := 0 })

end Spotter

/-! ## Conditions on the inputs, reference functions and concrete inputs -/

namespace Spotter

/-- A read of `PIND` that shows the plus button pressed and the minus, mode
and action buttons released. -/
def plusHeld (d : Nat) : Prop :=
  ButtonPressed (u8 d) BTN_PLUS_BIT ≠ 0 ∧ ButtonPressed (u8 d) BTN_MINUS_BIT = 0 ∧
    ButtonPressed (u8 d) BTN_MODE_BIT = 0 ∧ ButtonPressed (u8 d) BTN_ACTION_BIT = 0

/-- A read of `PIND` that shows the minus button pressed and the plus, mode
and action buttons released. -/
def minusHeld (d : Nat) : Prop :=
  ButtonPressed (u8 d) BTN_MINUS_BIT ≠ 0 ∧ ButtonPressed (u8 d) BTN_PLUS_BIT = 0 ∧
    ButtonPressed (u8 d) BTN_MODE_BIT = 0 ∧ ButtonPressed (u8 d) BTN_ACTION_BIT = 0

/-- A read of `PIND` that shows the plus, minus and action buttons released
(the mode button may read either way). -/
def adjustReleased (d : Nat) : Prop :=
  ButtonPressed (u8 d) BTN_PLUS_BIT = 0 ∧ ButtonPressed (u8 d) BTN_MINUS_BIT = 0 ∧
    ButtonPressed (u8 d) BTN_ACTION_BIT = 0

/-- Decoding of a segment pattern through the digit table: the position of
the pattern in `digit` (10 when it is not in the table). -/
def decodeDigit (pattern : Nat) : Nat := digit.indexOf pattern

/-- The timing value after a plus step (lines 338-339). -/
def incClamped (v : Nat) : Nat := if v + 1 ≤ 99 then u8 (v + 1) else v

/-- The timing value after a minus step (lines 347-348). -/
def decClamped (v : Nat) : Nat := if (v : Int) - 1 ≥ 1 then u8 (v - 1) else v

/-- The number of value changes after `n` iterations of the main loop with an
adjustment button held from the reset repeat state: one every
`BTN_1ST_DELAY + 1` iterations up to the `(BTN_1ST_STEPS + 1)`-th change, then
one every `BTN_2ST_DELAY + 1` iterations. -/
def heldChanges (n : Nat) : Nat :=
  if n < (BTN_1ST_STEPS + 1) * (BTN_1ST_DELAY + 1) then n / (BTN_1ST_DELAY + 1)
  else BTN_1ST_STEPS + 1 + (n - (BTN_1ST_STEPS + 1) * (BTN_1ST_DELAY + 1)) / (BTN_2ST_DELAY + 1)

/-- What one iteration does to the repeat state and the timing value when a
single adjustment button is held; `g` is the change of the timing value. -/
def HeldStep (fuel : Nat) (env : Env) (g : Nat → Nat) : Prop :=
  ∀ s : State, s.auto_mode ≠ 0 →
    ∃ s', mainIter fuel env s = some s' ∧ s'.auto_mode = s.auto_mode ∧
      (threshold s = true →
        s'.spot_delay = g s.spot_delay ∧ s'.btn_1st_delay_cnt = 0 ∧ s'.btn_2st_delay_cnt = 0 ∧
        s'.btn_1st_steps_cnt = (if s.btn_1st_steps_cnt = BTN_1ST_STEPS then BTN_1ST_STEPS
          else u8 (s.btn_1st_steps_cnt + 1)) ∧
        s'.btn_2st_delay_mode = (if s.btn_1st_steps_cnt = BTN_1ST_STEPS then 1
          else s.btn_2st_delay_mode)) ∧
      (threshold s = false →
        s'.spot_delay = s.spot_delay ∧
        s'.btn_1st_delay_cnt = (if s.btn_2st_delay_mode = 0 then u8 (s.btn_1st_delay_cnt + 1)
          else s.btn_1st_delay_cnt) ∧
        s'.btn_2st_delay_cnt = (if s.btn_2st_delay_mode = 0 then s.btn_2st_delay_cnt
          else u8 (s.btn_2st_delay_cnt + 1)) ∧
        s'.btn_1st_steps_cnt = s.btn_1st_steps_cnt ∧
        s'.btn_2st_delay_mode = s.btn_2st_delay_mode)

/-- The main-loop invariant on the timing value and its display: the value is
in 1..99 and the two buffers hold the patterns of its units and tens. -/
def loopInv (s : State) : Prop :=
  1 ≤ s.spot_delay ∧ s.spot_delay ≤ 99 ∧
    s.section1 = digitAt (s.spot_delay % 10) ∧ s.section2 = digitAt (s.spot_delay / 10)

/-- Whether a digit common line is at its enabled level: high in the
common-anode build (`polarity = 0`), low in the common-cathode build. -/
def lineEnabled (polarity portd bit : Nat) : Bool :=
  if polarity ≠ 0 then !portd.testBit bit else portd.testBit bit

/-- Both display buffers have their top bit clear. -/
def buffersOk (s : State) : Prop := s.section1 < 128 ∧ s.section2 < 128

/-- The resolution is one of its two valid values. -/
def unitsValid (s : State) : Prop := s.units = 1 ∨ s.units = 2

/-! ### Concrete environments and states -/

/-- An environment whose detector pin reads high and whose buttons are
released. -/
def envReleased : Env :=
  { pind := fun _ => 0xFF, pinb := fun _ => 0xFF, ee_ready := fun _ => true }

/-- An environment whose detector pin reads low on every poll. -/
def envGateLow : Env :=
  { pind := fun _ => 0xFF, pinb := fun _ => 0x00, ee_ready := fun _ => true }

/-- An environment whose detector pin reads low three times, then high. -/
def envGateLate : Env :=
  { pind := fun _ => 0xFF, pinb := fun k => if k < 3 then 0x00 else 0x80,
    ee_ready := fun _ => true }

/-- An environment in which the action button reads pressed on the first read
of `PIND` and released afterwards, with the detector pin high. -/
def envAction : Env :=
  { pind := fun k => if k = 0 then 0xEF else 0xFF, pinb := fun _ => 0x80,
    ee_ready := fun _ => true }

/-- An environment in which only the plus button is held, on every read. -/
def envPlus : Env :=
  { pind := fun _ => 0x1C, pinb := fun _ => 0xFF, ee_ready := fun _ => true }

/-- An environment in which only the minus button is held, on every read. -/
def envMinus : Env :=
  { pind := fun _ => 0x16, pinb := fun _ => 0xFF, ee_ready := fun _ => true }

/-- An environment for the setup menu: the plus button reads pressed on the
first read of `PIND`, the mode button on the fourth; the detector pin is high
and the store is ready. -/
def envSetup : Env :=
  { pind := fun k => if k = 0 then 0xFD else if k = 3 then 0xFB else 0xFF,
    pinb := fun _ => 0x80, ee_ready := fun _ => true }

/-- A state in the main loop with timing value 2 and resolution FINE. -/
def pulseDemoState : State :=
  { resetState 2 1 with units := 1, spot_delay := 2, PORTD := 30, PORTB := 128, irq := true }

/-- The state `pulseDemoState` after `unitsMs` and `out_on()`. -/
def pulseDemoOn : State :=
  { unitsMs pulseDemoState with PORTD := 31, irq := true, nB := 1, trace := [Event.outputOn] }

/-- The state `pulseDemoState` in manual mode (`auto_mode` false). -/
def manualDemoState : State := { unitsMs pulseDemoState with auto_mode := 0 }

/-- The state reached from `manualDemoState` by the action branch under
`envAction`, entered after the first read of `PIND`. -/
def manualAfterAction : State :=
  { manualDemoState with
    saved_value := 2, nD := 3, nB := 1, nE := 1,
    trace := [Event.outputOn, Event.outputOff, Event.delay 250, Event.delay 10] }

/-- The state reached from `unitsMs pulseDemoState` (auto mode) by two
iterations of the main loop under `envAction`. -/
def autoAfterTwo : State :=
  { unitsMs pulseDemoState with
    saved_value := 2, btn_1st_delay_cnt := 2, nD := 4, nB := 1, nE := 1,
    trace := [Event.delay 1, Event.outputOn] ++ List.replicate 20 (Event.delay 1) ++
      [Event.outputOff, Event.outputOff, Event.delay 250, Event.delay 10, Event.delay 1] }

/-- A main-loop state at the slow threshold (first-stage counter at 250) with
timing value `v`, auto mode, resolution FINE. -/
def thresholdState (v : Nat) : State :=
  { unitsMs pulseDemoState with spot_delay := v, btn_1st_delay_cnt := 250 }

/-- The state entering the setup menu with the persisted bytes 50 and 1. -/
def setupDemoState : State := loadUnits (resetState 50 1)

/-- The state leaving the setup menu from `setupDemoState` under `envSetup`:
the resolution toggled to 2 and stored. -/
def setupDemoDone : State :=
  { setupDemoState with
    units := 2, saved_step := 2, section1 := 32, nD := 5, nE := 1,
    trace := Event.delay 1 :: List.replicate 6 (Event.delay 50) }

/-- A main-loop state after `setupDemoDone` with the timing value at 42, in
manual mode. -/
def storeDemoState : State :=
  { enterLoop setupDemoDone with spot_delay := 42, auto_mode := 0 }

/-- The state after the action branch from `storeDemoState` under `envSetup`. -/
def storeDemoDone : State :=
  { storeDemoState with
    saved_value := 42, irq := true, nD := 7, nB := 1, nE := 2,
    PORTD := 0,
    trace := storeDemoState.trace ++
      [Event.outputOn, Event.outputOff, Event.delay 250, Event.delay 10] }

/-- The state with which `main` enters its loop from the persisted bytes 0
and 3 when no button is touched. -/
def bootDemoState : State :=
  { resetState 0 3 with
    PORTB := 128, PORTD := 30, section1 := 63, section2 := 109, irq := true, units := 1,
    units_ms := 10, spot_delay := 50, nD := 40,
    trace := List.replicate 40 (Event.delay 25) ++
      [Event.delay 1000, Event.delay 1000, Event.delay 500] }

/-- A main-loop state with the repeat state reset, auto mode, timing value
`v`, resolution FINE. -/
def heldStart (v : Nat) : State := { unitsMs pulseDemoState with spot_delay := v }

/-- A main-loop state in the fast stage, between two thresholds: second-stage
counter 7, step counter 10, fast-mode flag on. -/
def fastStageState : State :=
  { unitsMs pulseDemoState with
    btn_2st_delay_cnt := 7, btn_1st_steps_cnt := 10, btn_2st_delay_mode := 1 }

/-- The state `fastStageState` at the fast threshold (second-stage counter
50). -/
def fastThresholdState : State := { fastStageState with btn_2st_delay_cnt := 50 }

/-- The state `pulseDemoState` after `out_on()` under `envGateLate`: the
output set at the fourth poll. -/
def gateLateOn : State :=
  { pulseDemoState with PORTD := 31, irq := true, nB := 4, trace := [Event.outputOn] }

/-- A main-loop state in manual mode showing the timing value 2 (patterns of
the digits 2 and 0), with the action button just read pressed. -/
def manualShownState : State :=
  { ChangeDelay 2 manualDemoState with nD := 1 }

/-- The state `manualShownState` back in auto mode. -/
def autoShownState : State := { manualShownState with auto_mode := 1 }

/-- The state reached from `manualShownState` by the action branch under
`envAction`. -/
def manualAfterShown : State :=
  { manualShownState with
    saved_value := 2, nD := 3, nB := 1, nE := 1,
    trace := [Event.outputOn, Event.outputOff, Event.delay 250, Event.delay 10] }

/-- An environment like `envAction` whose store never reports ready. -/
def envNotReady : Env :=
  { pind := fun k => if k = 0 then 0xEF else 0xFF, pinb := fun _ => 0x80,
    ee_ready := fun _ => false }

/-- The state `manualShownState` with the timing value moved to 7 while the
store still holds 2. -/
def unsavedState : State := { manualShownState with spot_delay := 7 }

/-- The state after the action branch from `unsavedState` when the store is
not ready: `saved_value` still 2. -/
def unsavedAfterAction : State :=
  { unsavedState with
    nD := 3, nB := 1, nE := 1,
    trace := [Event.outputOn, Event.outputOff, Event.delay 250, Event.delay 10] }

/-- A setup-menu state with the resolution toggled to 2 while the store still
holds 1, at the confirmation. -/
def unsavedSetupState : State := { setupDemoState with units := 2, nD := 4 }

/-- The state after the confirmation from `unsavedSetupState` when the store
is not ready: `saved_step` still 1. -/
def unsavedSetupDone : State :=
  { unsavedSetupState with
    section1 := 32, nD := 5, nE := 1, trace := List.replicate 6 (Event.delay 50) }

/-- The state after two idle iterations of the main loop from
`bootDemoState`. -/
def bootAfterTwo : State :=
  { bootDemoState with
    btn_1st_delay_cnt := 2, nD := 42,
    trace := bootDemoState.trace ++ [Event.delay 1, Event.delay 1] }

/-- An environment in which the plus and minus buttons read pressed together
on every read, the mode and action buttons released. -/
def envBoth : Env :=
  { pind := fun _ => 0x14, pinb := fun _ => 0xFF, ee_ready := fun _ => true }

/-- The state `bootDemoState` at the slow threshold. -/
def bootThresholdState : State := { bootDemoState with btn_1st_delay_cnt := 250 }

/-- An environment in which the mode, plus and minus buttons read pressed on
every read and the action button released. -/
def envAllAdjust : Env :=
  { pind := fun _ => 0x10, pinb := fun _ => 0xFF, ee_ready := fun _ => true }

/-- An environment for the setup menu in which the mode button reads pressed
on the sixth read of `PIND` only, that is in the second pass of the menu; the
detector pin is high and the store is ready. -/
def envSetupLate : Env :=
  { pind := fun k => if k = 5 then 0xFB else 0xFF, pinb := fun _ => 0x80,
    ee_ready := fun _ => true }

/-- The state leaving the setup menu from `setupDemoState` under
`envSetupLate`: the letter pattern written in the first pass is still in
`section2`, the running light has ended in `section1`. -/
def setupLateDone : State :=
  { setupDemoState with
    section1 := 32, section2 := 0b1111000, nD := 7, nE := 1,
    trace := [Event.delay 1, Event.delay 1] ++ List.replicate 6 (Event.delay 50) }

end Spotter

/-! ## Helper lemmas -/

namespace Spotter

/-- The pulse loop, started at counter `i` below a 16-bit bound, ends after
`bound - i` one-millisecond delays and changes nothing but the trace. -/
theorem pulseLoop_run (bound : Nat) (hb : bound < 65536) :
    ∀ (fuel i : Nat) (s : State), i ≤ bound → bound - i < fuel →
      pulseLoop bound fuel i s
        = some { s with trace := s.trace ++ List.replicate (bound - i) (Event.delay 1) } := by
  intro fuel
  induction fuel with
  | zero => intro i s _ h; omega
  | succ k ih =>
    intro i s hi hf
    unfold pulseLoop
    by_cases hlt : i < bound
    · have hw : u16 (i + 1) = i + 1 := by unfold u16; omega
      rw [if_pos hlt, hw, ih (i + 1) (delay_ms 1 s) (by omega) (by omega)]
      have hrep : bound - i = (bound - (i + 1)) + 1 := by omega
      rw [hrep, List.replicate_succ]
      simp [delay_ms]
    · have h0 : bound - i = 0 := by omega
      rw [if_neg hlt, h0]
      simp

theorem out_on_some {fuel : Nat} {env : Env} {s s1 : State} (h : out_on fuel env s = some s1) :
    s1 = { s with PORTD := s1.PORTD, irq := s1.irq, nB := s1.nB,
                  trace := s.trace ++ [Event.outputOn] } := by
  unfold out_on at h
  simp only at h
  split at h
  · exact absurd h (by simp)
  · cases h; rfl

/-- Bit 7 of a register value decides `ZeroCrossWait`: the result is `1` when
the bit is clear and `0` when it is set. -/
theorem ZeroCrossWait_eq (pinb : Nat) :
    ZeroCrossWait pinb = if pinb.testBit 7 then 0 else 1 := by
  unfold ZeroCrossWait lnot Nat.testBit
  rw [Nat.and_comm 1]
  rcases Nat.mod_two_eq_zero_or_one (pinb >>> 7) with h | h <;>
    simp [Nat.and_one_is_mod, h]

theorem out_on_polls_done (pinb : Nat → Nat) :
    ∀ (n : Nat) (c : OutOnCfg), c.polling = false → out_on_polls pinb n c = c := by
  intro n
  induction n with
  | zero => intro c _; rfl
  | succ k ih =>
    intro c hc
    have h1 : out_on_poll pinb c = c := by simp [out_on_poll, hc]
    rw [out_on_polls, h1, ih c hc]

theorem out_on_polls_wait (pinb : Nat → Nat) :
    ∀ (n : Nat) (c : OutOnCfg), c.polling = true →
      (∀ i, i < n → ZeroCrossWait (u8 (pinb (c.nB + i))) ≠ 0) →
      out_on_polls pinb n c = { c with nB := c.nB + n } := by
  intro n
  induction n with
  | zero => intro c _ _; rfl
  | succ k ih =>
    intro c hc hw
    have h0 : ZeroCrossWait (u8 (pinb c.nB)) ≠ 0 := by simpa using hw 0 (Nat.succ_pos k)
    have h1 : out_on_poll pinb c = { c with nB := c.nB + 1 } := by
      simp [out_on_poll, hc, h0]
    have h2 := ih { c with nB := c.nB + 1 } hc (by
      intro i hi
      have := hw (i + 1) (by omega)
      simpa [Nat.add_assoc, Nat.add_comm 1 i] using this)
    rw [out_on_polls, h1, h2]
    simp [Nat.add_assoc, Nat.add_comm 1 k]

/-- One poll of `out_on()` unfolded: either the gate is open at this read and
the output is set, or the function goes on polling from the next read. -/
theorem out_on_succ (fuel : Nat) (env : Env) (s : State) :
    out_on (fuel + 1) env s =
      if ZeroCrossWait (u8 (env.pinb s.nB)) ≠ 0 then out_on fuel env { s with nB := s.nB + 1 }
      else some { s with PORTD := u8 (s.PORTD ||| (1 <<< OUT_SIGNAL_BIT)), irq := true,
                         nB := s.nB + 1, trace := s.trace ++ [Event.outputOn] } := by
  by_cases h : ZeroCrossWait (u8 (env.pinb s.nB)) ≠ 0
  · rw [if_pos h]
    simp only [out_on, out_on_polls, out_on_poll, out_on_enter, if_true]
    rw [if_pos h]
  · rw [if_neg h]
    simp only [out_on, out_on_polls, out_on_poll, out_on_enter, if_true]
    rw [if_neg h, out_on_polls_done _ _ _ rfl]
    simp

theorem out_on_polls_add (pinb : Nat → Nat) :
    ∀ (a b : Nat) (c : OutOnCfg),
      out_on_polls pinb (a + b) c = out_on_polls pinb b (out_on_polls pinb a c) := by
  intro a
  induction a with
  | zero => intro b c; simp [out_on_polls]
  | succ k ih =>
    intro b c
    rw [Nat.add_right_comm, out_on_polls, out_on_polls, ih]

theorem afterPulse_some {fuel : Nat} {env : Env} {s s' : State}
    (h : afterPulse fuel env s = some s') :
    s' = { s with PORTD := u8 (s.PORTD &&& not16 (1 <<< OUT_SIGNAL_BIT)),
                  saved_value := if env.ee_ready s.nE then u8 s.spot_delay else s.saved_value,
                  nE := s.nE + 1, nD := s'.nD,
                  trace := s.trace ++ [Event.outputOff, Event.delay BTN_RELEASE_HOLD,
                    Event.delay (BTN_CYCLE_DELAY * 10)] } := by
  simp only [afterPulse, Option.bind_eq_bind, Option.bind_eq_some] at h
  obtain ⟨n, _, m, _, h⟩ := h
  cases h
  cases hr : env.ee_ready s.nE <;> simp [delay_ms, storeValue, out_off, hr]

theorem timedPulse_auto {s : State} (ha : s.auto_mode ≠ 0)
    (hb : s.spot_delay * s.units_ms < 65536) :
    timedPulse s = some (out_off
      { s with trace := s.trace ++ List.replicate (s.spot_delay * s.units_ms) (Event.delay 1) }) := by
  have hw : u16 (s.spot_delay * s.units_ms) = s.spot_delay * s.units_ms := by
    unfold u16; omega
  unfold timedPulse
  rw [if_pos ha, hw, pulseLoop_run _ hb 65536 0 s (Nat.zero_le _) (by omega)]
  simp

/-- The value `out_off()` leaves in the port has bit 0 clear. -/
theorem out_off_bit0 (p : Nat) :
    (u8 (p &&& not16 (1 <<< OUT_SIGNAL_BIT))).testBit 0 = false := by
  have h : u8 (p &&& not16 (1 <<< OUT_SIGNAL_BIT)) = (p &&& 65534) % 2 ^ 8 := by
    simp [u8, not16, u16]
  rw [h, Nat.testBit_mod_two_pow, Nat.testBit_and]
  have : Nat.testBit 65534 0 = false := by decide
  simp [this]

/-- The value `out_off()` leaves in the port keeps bits 1..7. -/
theorem out_off_bits (p i : Nat) (h0 : i ≠ 0) (h8 : i < 8) :
    (u8 (p &&& not16 (1 <<< OUT_SIGNAL_BIT))).testBit i = p.testBit i := by
  have h : u8 (p &&& not16 (1 <<< OUT_SIGNAL_BIT)) = (p &&& 65534) % 2 ^ 8 := by
    simp [u8, not16, u16]
  rw [h, Nat.testBit_mod_two_pow, Nat.testBit_and]
  have : Nat.testBit 65534 i = true := by
    interval_cases i <;> first | contradiction | decide
  simp [this, h8]

theorem modeStep_PORTD (env : Env) (s : State) : (modeStep env s).PORTD = s.PORTD := by
  simp only [modeStep, readPIND]
  split <;> rfl

theorem countStep_PORTD (s : State) : (countStep s).PORTD = s.PORTD := by
  simp only [countStep]
  split <;> rfl

theorem ChangeDelay_PORTD (v : Nat) (s : State) : (ChangeDelay v s).PORTD = s.PORTD := by
  simp only [ChangeDelay]
  split_ifs <;> rfl

theorem plusStep_PORTD (env : Env) (s : State) : (plusStep env s).PORTD = s.PORTD := by
  simp only [plusStep, readPIND]
  split
  · split
    · rw [ChangeDelay_PORTD]; exact countStep_PORTD _
    · exact countStep_PORTD _
  · rfl

theorem minusStep_PORTD (env : Env) (s : State) : (minusStep env s).PORTD = s.PORTD := by
  simp only [minusStep, readPIND]
  split
  · split
    · rw [ChangeDelay_PORTD]; exact countStep_PORTD _
    · exact countStep_PORTD _
  · rfl

theorem releaseStep_PORTD (env : Env) (s : State) : (releaseStep env s).PORTD = s.PORTD := by
  simp only [releaseStep, readPIND]
  split
  · split <;> rfl
  · rfl

theorem repeatLogic_PORTD (env : Env) (s : State) : (repeatLogic env s).PORTD = s.PORTD := by
  simp only [repeatLogic]
  split
  · rw [releaseStep_PORTD, minusStep_PORTD, plusStep_PORTD, modeStep_PORTD]
  · split <;> rfl

theorem actionBranch_PORTD {fuel : Nat} {env : Env} {s s' : State}
    (h : actionBranch fuel env s = some s') : s'.PORTD.testBit 0 = false := by
  simp only [actionBranch, Option.bind_eq_bind, Option.bind_eq_some] at h
  obtain ⟨s1, _, s2, _, h3⟩ := h
  rw [afterPulse_some h3]
  exact out_off_bit0 _

/-- One iteration of the main loop leaves the output bit low when it found it
low. -/
theorem mainIter_PORTD {fuel : Nat} {env : Env} {s s' : State}
    (hlow : s.PORTD.testBit 0 = false) (h : mainIter fuel env s = some s') :
    s'.PORTD.testBit 0 = false := by
  simp only [mainIter, Option.map_eq_some'] at h
  obtain ⟨s1, h1, h2⟩ := h
  rw [← h2, repeatLogic_PORTD]
  simp only [actionStep, readPIND] at h1
  split at h1
  · exact actionBranch_PORTD h1
  · cases h1; exact hlow

theorem mainLoop_PORTD {fuel : Nat} {env : Env} :
    ∀ (n : Nat) {s s' : State}, s.PORTD.testBit 0 = false →
      mainLoop fuel env n s = some s' → s'.PORTD.testBit 0 = false := by
  intro n
  induction n with
  | zero => intro s s' hlow h; cases h; exact hlow
  | succ k ih =>
    intro s s' hlow h
    simp only [mainLoop, Option.bind_eq_some] at h
    obtain ⟨s1, h1, h2⟩ := h
    exact ih (mainIter_PORTD hlow h1) h2

/-! ### The repeat-rate logic, step by step -/

/-- The function `ChangeDelay` writes the two digit patterns of `min value 99`
(for `value = 0` both are `digit[0]`). -/
theorem ChangeDelay_eq (v : Nat) (s : State) :
    ChangeDelay v s = { s with section1 := digitAt (min v 99 % 10),
                               section2 := digitAt (min v 99 / 10) } := by
  have hmin : (if v > 99 then 99 else v) = min v 99 := by
    split_ifs <;> omega
  simp only [ChangeDelay, hmin]
  split_ifs with h
  · rfl
  · have h0 : min v 99 = 0 := by simpa using h
    rw [h0]

theorem countStep_eq (s : State) :
    countStep s = { s with
      btn_1st_steps_cnt :=
        if s.btn_1st_steps_cnt = BTN_1ST_STEPS then s.btn_1st_steps_cnt
        else u8 (s.btn_1st_steps_cnt + 1),
      btn_2st_delay_mode :=
        if s.btn_1st_steps_cnt = BTN_1ST_STEPS then 1 else s.btn_2st_delay_mode } := by
  simp only [countStep]
  split_ifs <;> rfl

theorem modeStep_eq (env : Env) (s : State) :
    modeStep env s = { s with
      nD := s.nD + 1,
      auto_mode :=
        if ButtonPressed (u8 (env.pind s.nD)) BTN_MODE_BIT ≠ 0 then lnot s.auto_mode
        else s.auto_mode } := by
  simp only [modeStep, readPIND]
  split_ifs <;> rfl

theorem plusStep_eq (env : Env) (s : State) :
    plusStep env s = { s with
      nD := s.nD + 1,
      btn_1st_steps_cnt :=
        if ButtonPressed (u8 (env.pind s.nD)) BTN_PLUS_BIT ≠ 0 ∧ s.auto_mode ≠ 0 then
          (if s.btn_1st_steps_cnt = BTN_1ST_STEPS then s.btn_1st_steps_cnt
           else u8 (s.btn_1st_steps_cnt + 1))
        else s.btn_1st_steps_cnt,
      btn_2st_delay_mode :=
        if ButtonPressed (u8 (env.pind s.nD)) BTN_PLUS_BIT ≠ 0 ∧ s.auto_mode ≠ 0 then
          (if s.btn_1st_steps_cnt = BTN_1ST_STEPS then 1 else s.btn_2st_delay_mode)
        else s.btn_2st_delay_mode,
      spot_delay :=
        if (ButtonPressed (u8 (env.pind s.nD)) BTN_PLUS_BIT ≠ 0 ∧ s.auto_mode ≠ 0) ∧
            s.spot_delay + 1 ≤ 99 then u8 (s.spot_delay + 1)
        else s.spot_delay,
      section1 :=
        if (ButtonPressed (u8 (env.pind s.nD)) BTN_PLUS_BIT ≠ 0 ∧ s.auto_mode ≠ 0) ∧
            s.spot_delay + 1 ≤ 99 then digitAt (min (u8 (s.spot_delay + 1)) 99 % 10)
        else s.section1,
      section2 :=
        if (ButtonPressed (u8 (env.pind s.nD)) BTN_PLUS_BIT ≠ 0 ∧ s.auto_mode ≠ 0) ∧
            s.spot_delay + 1 ≤ 99 then digitAt (min (u8 (s.spot_delay + 1)) 99 / 10)
        else s.section2 } := by
  simp only [plusStep, readPIND, ChangeDelay_eq, countStep_eq]
  by_cases hP : ButtonPressed (u8 (env.pind s.nD)) BTN_PLUS_BIT ≠ 0 ∧ s.auto_mode ≠ 0
  · by_cases hi : s.spot_delay + 1 ≤ 99
    · simp only [if_pos hP, if_pos hi, if_pos (And.intro hP hi)]
    · simp only [if_pos hP, if_neg hi, if_neg (fun h => hi (And.right h))]
  · simp only [if_neg hP, if_neg (fun h => hP (And.left h))]

theorem minusStep_eq (env : Env) (s : State) :
    minusStep env s = { s with
      nD := s.nD + 1,
      btn_1st_steps_cnt :=
        if ButtonPressed (u8 (env.pind s.nD)) BTN_MINUS_BIT ≠ 0 ∧ s.auto_mode ≠ 0 then
          (if s.btn_1st_steps_cnt = BTN_1ST_STEPS then s.btn_1st_steps_cnt
           else u8 (s.btn_1st_steps_cnt + 1))
        else s.btn_1st_steps_cnt,
      btn_2st_delay_mode :=
        if ButtonPressed (u8 (env.pind s.nD)) BTN_MINUS_BIT ≠ 0 ∧ s.auto_mode ≠ 0 then
          (if s.btn_1st_steps_cnt = BTN_1ST_STEPS then 1 else s.btn_2st_delay_mode)
        else s.btn_2st_delay_mode,
      spot_delay :=
        if (ButtonPressed (u8 (env.pind s.nD)) BTN_MINUS_BIT ≠ 0 ∧ s.auto_mode ≠ 0) ∧
            (s.spot_delay : Int) - 1 ≥ 1 then u8 (s.spot_delay - 1)
        else s.spot_delay,
      section1 :=
        if (ButtonPressed (u8 (env.pind s.nD)) BTN_MINUS_BIT ≠ 0 ∧ s.auto_mode ≠ 0) ∧
            (s.spot_delay : Int) - 1 ≥ 1 then digitAt (min (u8 (s.spot_delay - 1)) 99 % 10)
        else s.section1,
      section2 :=
        if (ButtonPressed (u8 (env.pind s.nD)) BTN_MINUS_BIT ≠ 0 ∧ s.auto_mode ≠ 0) ∧
            (s.spot_delay : Int) - 1 ≥ 1 then digitAt (min (u8 (s.spot_delay - 1)) 99 / 10)
        else s.section2 } := by
  simp only [minusStep, readPIND, ChangeDelay_eq, countStep_eq]
  by_cases hP : ButtonPressed (u8 (env.pind s.nD)) BTN_MINUS_BIT ≠ 0 ∧ s.auto_mode ≠ 0
  · by_cases hi : (s.spot_delay : Int) - 1 ≥ 1
    · simp only [if_pos hP, if_pos hi, if_pos (And.intro hP hi)]
    · simp only [if_pos hP, if_neg hi, if_neg (fun h => hi (And.right h))]
  · simp only [if_neg hP, if_neg (fun h => hP (And.left h))]

theorem releaseStep_eq (env : Env) (s : State) :
    releaseStep env s = { s with
      nD := if ButtonPressed (u8 (env.pind s.nD)) BTN_PLUS_BIT = 0 then s.nD + 2 else s.nD + 1,
      btn_1st_steps_cnt :=
        if ButtonPressed (u8 (env.pind s.nD)) BTN_PLUS_BIT = 0 ∧
            ButtonPressed (u8 (env.pind (s.nD + 1))) BTN_MINUS_BIT = 0 then 0
        else s.btn_1st_steps_cnt,
      btn_2st_delay_mode :=
        if ButtonPressed (u8 (env.pind s.nD)) BTN_PLUS_BIT = 0 ∧
            ButtonPressed (u8 (env.pind (s.nD + 1))) BTN_MINUS_BIT = 0 then 0
        else s.btn_2st_delay_mode,
      btn_2st_delay_cnt :=
        if ButtonPressed (u8 (env.pind s.nD)) BTN_PLUS_BIT = 0 ∧
            ButtonPressed (u8 (env.pind (s.nD + 1))) BTN_MINUS_BIT = 0 then 0
        else s.btn_2st_delay_cnt } := by
  simp only [releaseStep, readPIND]
  by_cases h1 : ButtonPressed (u8 (env.pind s.nD)) BTN_PLUS_BIT = 0
  · by_cases h2 : ButtonPressed (u8 (env.pind (s.nD + 1))) BTN_MINUS_BIT = 0
    · simp only [if_pos h1, if_pos h2, if_pos (And.intro h1 h2)]
    · simp only [if_pos h1, if_neg h2, if_neg (fun h => h2 (And.right h))]
  · simp only [if_neg h1, if_neg (fun h => h1 (And.left h))]

/-- An iteration whose read of the action button shows it released runs the
repeat-rate logic only, and returns. -/
theorem mainIter_idle {fuel : Nat} {env : Env} {s : State}
    (h : ButtonPressed (u8 (env.pind s.nD)) BTN_ACTION_BIT = 0) :
    mainIter fuel env s
      = some (repeatLogic env { delay_ms BTN_CYCLE_DELAY s with nD := s.nD + 1 }) := by
  have h' : ButtonPressed (u8 (env.pind (delay_ms BTN_CYCLE_DELAY s).nD)) BTN_ACTION_BIT = 0 := h
  simp only [mainIter, actionStep, readPIND, h', ne_eq, not_true_eq_false, if_false,
    Option.map_some']
  rfl

/-- Below the threshold the repeat-rate logic only advances one counter. -/
theorem repeatLogic_below {env : Env} {s : State} (hth : threshold s = false) :
    repeatLogic env s =
      if s.btn_2st_delay_mode = 0 then
        { s with btn_1st_delay_cnt := u8 (s.btn_1st_delay_cnt + 1) }
      else { s with btn_2st_delay_cnt := u8 (s.btn_2st_delay_cnt + 1) } := by
  simp [repeatLogic, hth]

/-- At the threshold with only the plus button held (auto mode). -/
theorem repeatLogic_plusHeld {env : Env} {s : State} (hth : threshold s = true)
    (ha : s.auto_mode ≠ 0) (h : ∀ k, plusHeld (env.pind k)) :
    (repeatLogic env s).spot_delay
        = (if s.spot_delay + 1 ≤ 99 then u8 (s.spot_delay + 1) else s.spot_delay) ∧
    (repeatLogic env s).auto_mode = s.auto_mode ∧
    (repeatLogic env s).btn_1st_delay_cnt = 0 ∧
    (repeatLogic env s).btn_2st_delay_cnt = 0 ∧
    (repeatLogic env s).btn_1st_steps_cnt
        = (if s.btn_1st_steps_cnt = BTN_1ST_STEPS then BTN_1ST_STEPS
           else u8 (s.btn_1st_steps_cnt + 1)) ∧
    (repeatLogic env s).btn_2st_delay_mode
        = (if s.btn_1st_steps_cnt = BTN_1ST_STEPS then 1 else s.btn_2st_delay_mode) := by
  have hp : ∀ k, ButtonPressed (u8 (env.pind k)) BTN_PLUS_BIT ≠ 0 := fun k => (h k).1
  have hm : ∀ k, ButtonPressed (u8 (env.pind k)) BTN_MINUS_BIT = 0 := fun k => (h k).2.1
  have ho : ∀ k, ButtonPressed (u8 (env.pind k)) BTN_MODE_BIT = 0 := fun k => (h k).2.2.1
  simp only [repeatLogic, hth, if_true, modeStep_eq, plusStep_eq, minusStep_eq, releaseStep_eq,
    hp, hm, ho, ha, ne_eq, not_false_eq_true, not_true_eq_false,
    and_self, if_false, and_true, true_and, false_and]
  split_ifs <;> simp_all

/-- At the threshold with only the minus button held (auto mode). -/
theorem repeatLogic_minusHeld {env : Env} {s : State} (hth : threshold s = true)
    (ha : s.auto_mode ≠ 0) (h : ∀ k, minusHeld (env.pind k)) :
    (repeatLogic env s).spot_delay
        = (if (s.spot_delay : Int) - 1 ≥ 1 then u8 (s.spot_delay - 1) else s.spot_delay) ∧
    (repeatLogic env s).auto_mode = s.auto_mode ∧
    (repeatLogic env s).btn_1st_delay_cnt = 0 ∧
    (repeatLogic env s).btn_2st_delay_cnt = 0 ∧
    (repeatLogic env s).btn_1st_steps_cnt
        = (if s.btn_1st_steps_cnt = BTN_1ST_STEPS then BTN_1ST_STEPS
           else u8 (s.btn_1st_steps_cnt + 1)) ∧
    (repeatLogic env s).btn_2st_delay_mode
        = (if s.btn_1st_steps_cnt = BTN_1ST_STEPS then 1 else s.btn_2st_delay_mode) := by
  have hm : ∀ k, ButtonPressed (u8 (env.pind k)) BTN_MINUS_BIT ≠ 0 := fun k => (h k).1
  have hp : ∀ k, ButtonPressed (u8 (env.pind k)) BTN_PLUS_BIT = 0 := fun k => (h k).2.1
  have ho : ∀ k, ButtonPressed (u8 (env.pind k)) BTN_MODE_BIT = 0 := fun k => (h k).2.2.1
  simp only [repeatLogic, hth, if_true, modeStep_eq, plusStep_eq, minusStep_eq, releaseStep_eq,
    hp, hm, ho, ha, ne_eq, not_false_eq_true, not_true_eq_false,
    and_self, if_false, and_true, true_and, false_and]
  split_ifs <;> simp_all

/-! ### The persisted bytes -/

theorem saved_eq (s : State) :
    saved s = { s with section1 := u8 (1 <<< 5),
                       trace := s.trace ++ List.replicate 6 (Event.delay 50) } := by
  simp [saved, savedLoop, delay_ms, u8]

theorem adjustPressed_eq (env : Env) (s : State) :
    adjustPressed env s =
      (decide (ButtonPressed (u8 (env.pind s.nD)) BTN_PLUS_BIT ≠ 0 ∨
          ButtonPressed (u8 (env.pind (s.nD + 1))) BTN_MINUS_BIT ≠ 0),
        { s with nD := if ButtonPressed (u8 (env.pind s.nD)) BTN_PLUS_BIT ≠ 0 then s.nD + 1
                       else s.nD + 2 }) := by
  simp only [adjustPressed, readPIND]
  by_cases h : ButtonPressed (u8 (env.pind s.nD)) BTN_PLUS_BIT ≠ 0
  · simp [h]
  · simp [h]

theorem adjustStep_some {fuel : Nat} {env : Env} {s s' : State}
    (h : adjustStep fuel env s = some s') :
    s' = { s with nD := s'.nD, units := s'.units } ∧
      (s'.units = s.units ∨ s'.units = (toggleUnits s).units) := by
  simp only [adjustStep, adjustPressed_eq] at h
  by_cases hc : ButtonPressed (u8 (env.pind s.nD)) BTN_PLUS_BIT ≠ 0 ∨
      ButtonPressed (u8 (env.pind (s.nD + 1))) BTN_MINUS_BIT ≠ 0
  · rw [decide_eq_true hc, if_pos rfl, Option.map_eq_some'] at h
    obtain ⟨n, _, rfl⟩ := h
    exact ⟨rfl, Or.inr rfl⟩
  · rw [decide_eq_false hc] at h
    simp only [Bool.false_eq_true, if_false, Option.some.injEq] at h
    subst h
    exact ⟨rfl, Or.inl rfl⟩

theorem confirmSetup_some {fuel : Nat} {env : Env} {s s' : State}
    (h : confirmSetup fuel env s = some s') :
    s' = { s with nD := s'.nD, nE := s.nE + 1,
                  saved_step := if env.ee_ready s.nE then u8 s.units else s.saved_step,
                  section1 := u8 (1 <<< 5),
                  trace := s.trace ++ List.replicate 6 (Event.delay 50) } := by
  simp only [confirmSetup, Option.map_eq_some'] at h
  obtain ⟨n, _, rfl⟩ := h
  rw [saved_eq]
  cases hr : env.ee_ready s.nE <;> simp [storeStep, hr]

/-- What the setup menu leaves in the store: `saved_value` is untouched and
`saved_step` receives the final resolution when the store is ready. -/
theorem setupMenu_store (env : Env) :
    ∀ (fuel : Nat) (s s' : State), setupMenu env fuel s = some s' →
      s'.saved_value = s.saved_value ∧ s'.nE = s.nE + 1 ∧
      s'.saved_step = (if env.ee_ready s.nE then u8 s'.units else s.saved_step) ∧
      ((s.units = 1 ∨ s.units = 2) → (s'.units = 1 ∨ s'.units = 2)) := by
  intro fuel
  induction fuel with
  | zero => intro s s' h; simp [setupMenu] at h
  | succ k ih =>
    intro s s' h
    simp only [setupMenu, Option.bind_eq_some] at h
    obtain ⟨s1, h1, h2⟩ := h
    obtain ⟨e1, hu1⟩ := adjustStep_some h1
    have hsv : s1.saved_value = s.saved_value := by rw [e1]; rfl
    have hss : s1.saved_step = s.saved_step := by rw [e1]; rfl
    have hne : s1.nE = s.nE := by rw [e1]; rfl
    have hun : (s.units = 1 ∨ s.units = 2) → (s1.units = 1 ∨ s1.units = 2) := by
      intro hs
      rcases hu1 with hu | hu
      · rw [hu]; exact hs
      · rw [hu]
        rcases hs with hs | hs <;> simp [toggleUnits, delay_ms, hs]
    simp only [readPIND] at h2
    split_ifs at h2 with hm
    · have e2 := confirmSetup_some h2
      have hu2 : s'.units = s1.units := by rw [e2]
      refine ⟨?_, ?_, ?_, ?_⟩
      · rw [e2]; exact hsv
      · rw [e2]; simp [hne]
      · rw [hu2, e2]; simp [hne, hss]
      · intro hs; rw [hu2]; exact hun hs
    · obtain ⟨g1, g2, g3, g4⟩ := ih _ _ h2
      refine ⟨?_, ?_, ?_, ?_⟩
      · rw [g1]; exact hsv
      · rw [g2]; simp [hne]
      · rw [g3]; simp [hne, hss]
      · intro hs; exact g4 (hun hs)

theorem pulseLoop_some (bound : Nat) :
    ∀ (fuel i : Nat) (s s' : State), pulseLoop bound fuel i s = some s' →
      s' = { s with trace := s'.trace } := by
  intro fuel
  induction fuel with
  | zero => intro i s s' h; simp [pulseLoop] at h
  | succ k ih =>
    intro i s s' h
    unfold pulseLoop at h
    split_ifs at h
    · have := ih _ _ _ h
      rw [this]
      rfl
    · cases h; rfl

theorem timedPulse_some {s s' : State} (h : timedPulse s = some s') :
    s' = { s with PORTD := s'.PORTD, trace := s'.trace } := by
  unfold timedPulse at h
  split_ifs at h with ha
  · simp only [Option.map_eq_some'] at h
    obtain ⟨s2, h2, rfl⟩ := h
    have := pulseLoop_some _ _ _ _ _ h2
    rw [this]
    rfl
  · cases h; rfl

/-- What a completed action branch changes: the output port, the interrupt
flag, the cursors and the trace, and `saved_value` when the store is ready. -/
theorem actionBranch_some {fuel : Nat} {env : Env} {s s' : State}
    (h : actionBranch fuel env s = some s') :
    s' = { s with PORTD := s'.PORTD, irq := s'.irq, nB := s'.nB, nD := s'.nD,
                  trace := s'.trace, nE := s.nE + 1,
                  saved_value := if env.ee_ready s.nE then u8 s.spot_delay
                                 else s.saved_value } := by
  simp only [actionBranch, Option.bind_eq_bind, Option.bind_eq_some] at h
  obtain ⟨s1, h1, s2, h2, h3⟩ := h
  have e1 := out_on_some h1
  have e2 := timedPulse_some h2
  have e3 := afterPulse_some h3
  have a1 : s2.nE = s.nE := by rw [e2, e1]
  have a2 : s2.spot_delay = s.spot_delay := by rw [e2, e1]
  have a3 : s2.saved_value = s.saved_value := by rw [e2, e1]
  rw [e3, a1, a2, a3, e2, e1]

theorem startupSelect_frame (env : Env) :
    ∀ (fuel i e tmp off : Nat) (s : State) (r : Nat × State),
      startupSelect env fuel i e tmp off s = r →
      r.2 = { s with section1 := r.2.section1, section2 := r.2.section2, nD := r.2.nD,
                     trace := r.2.trace } := by
  intro fuel
  induction fuel with
  | zero => intro i e tmp off s r h; cases h; rfl
  | succ k ih =>
    intro i e tmp off s r h
    unfold startupSelect at h
    by_cases hc : i < 40 ∧ e = 0
    · rw [if_pos hc] at h
      simp only [readPIND] at h
      have := ih _ _ _ _ _ _ h
      rw [this]
      rfl
    · rw [if_neg hc] at h
      cases h; rfl

theorem splash_eq (s : State) :
    splash s = { s with section1 := 0, section2 := 0,
                        trace := s.trace ++ [Event.delay 1000, Event.delay 1000,
                          Event.delay 500] } := by
  simp [splash, delay_ms]

/-- The timing value with which `main` enters its loop is the validated
`saved_value` byte, and the resolution is 1 or 2. -/
theorem startup_some {fuel : Nat} {env : Env} {s s' : State}
    (h : startup fuel env s = some s') :
    s'.spot_delay = (loadDelay s).spot_delay ∧ (s'.units = 1 ∨ s'.units = 2) := by
  simp only [startup, Option.map_eq_some'] at h
  obtain ⟨s1, h1, h2⟩ := h
  have hfr := startupSelect_frame env 41 0 0 0 0 (loadUnits (pullUps s)) _ rfl
  have hu0 : (loadUnits (pullUps s)).units = 1 ∨ (loadUnits (pullUps s)).units = 2 := by
    simp only [loadUnits]
    split_ifs
    · exact Or.inl rfl
    · omega
  have hv : (startupSelect env 41 0 0 0 0 (loadUnits (pullUps s))).2.saved_value
      = s.saved_value := by rw [hfr]; rfl
  have hu : (startupSelect env 41 0 0 0 0 (loadUnits (pullUps s))).2.units = 1 ∨
      (startupSelect env 41 0 0 0 0 (loadUnits (pullUps s))).2.units = 2 := by
    rw [hfr]; exact hu0
  have key : s1.saved_value = s.saved_value ∧ (s1.units = 1 ∨ s1.units = 2) := by
    unfold setupOrSplash at h1
    split_ifs at h1 with he
    · obtain ⟨n, _, h3⟩ := Option.bind_eq_some.mp h1
      obtain ⟨g1, _, _, g4⟩ := setupMenu_store env _ _ _ h3
      exact ⟨g1.trans hv, g4 hu⟩
    · cases h1
      rw [splash_eq]
      exact ⟨hv, hu⟩
  subst h2
  simp only [enterLoop, ChangeDelay_eq, loadDelay, unitsMs, key.1]
  exact ⟨trivial, key.2⟩

/-! ### The digit table -/

theorem digit_nodup : digit.Nodup := by decide

theorem decode_encode :
    ∀ v, v < 100 → 10 * decodeDigit (digitAt (v / 10)) + decodeDigit (digitAt (v % 10)) = v := by
  decide

theorem digit_lookup : ∀ i, i < 10 → digit[i]? = some (digitAt i) := by
  decide

/-! ### Runs of the main loop with a button held -/

theorem mainLoop_succ (fuel : Nat) (env : Env) :
    ∀ (n : Nat) (s : State),
      mainLoop fuel env (n + 1) s = (mainLoop fuel env n s).bind (mainIter fuel env) := by
  intro n
  induction n with
  | zero =>
    intro s
    simp [mainLoop]
  | succ k ih =>
    intro s
    rw [mainLoop]
    cases h : mainIter fuel env s with
    | none => simp [mainLoop, h]
    | some s1 =>
      simp only [Option.some_bind]
      rw [ih s1]
      conv_rhs => rw [mainLoop, h]
      simp

theorem threshold_iff (s : State) :
    threshold s = true ↔
      s.btn_1st_delay_cnt = BTN_1ST_DELAY ∨
        (s.btn_2st_delay_cnt = BTN_2ST_DELAY ∧ s.btn_2st_delay_mode ≠ 0) := by
  simp [threshold]

theorem heldStep_below (env : Env) {s : State} (hth : threshold s = false) :
    (repeatLogic env s).spot_delay = s.spot_delay ∧
    (repeatLogic env s).auto_mode = s.auto_mode ∧
    (repeatLogic env s).btn_1st_delay_cnt = (if s.btn_2st_delay_mode = 0
      then u8 (s.btn_1st_delay_cnt + 1) else s.btn_1st_delay_cnt) ∧
    (repeatLogic env s).btn_2st_delay_cnt = (if s.btn_2st_delay_mode = 0
      then s.btn_2st_delay_cnt else u8 (s.btn_2st_delay_cnt + 1)) ∧
    (repeatLogic env s).btn_1st_steps_cnt = s.btn_1st_steps_cnt ∧
    (repeatLogic env s).btn_2st_delay_mode = s.btn_2st_delay_mode := by
  rw [repeatLogic_below hth]
  split_ifs <;> simp

theorem plusHeld_step (fuel : Nat) {env : Env} (h : ∀ k, plusHeld (env.pind k)) :
    HeldStep fuel env incClamped := by
  intro s ha
  refine ⟨_, mainIter_idle (h _).2.2.2, ?_, ?_, ?_⟩
  · cases hth : threshold { delay_ms BTN_CYCLE_DELAY s with nD := s.nD + 1 }
    · exact (heldStep_below env hth).2.1
    · exact (repeatLogic_plusHeld hth ha h).2.1
  · intro hth
    obtain ⟨g1, _, g3, g4, g5, g6⟩ :=
      repeatLogic_plusHeld (s := { delay_ms BTN_CYCLE_DELAY s with nD := s.nD + 1 }) hth ha h
    exact ⟨g1, g3, g4, g5, g6⟩
  · intro hth
    obtain ⟨g1, _, g3, g4, g5, g6⟩ :=
      heldStep_below env (s := { delay_ms BTN_CYCLE_DELAY s with nD := s.nD + 1 }) hth
    exact ⟨g1, g3, g4, g5, g6⟩

theorem minusHeld_step (fuel : Nat) {env : Env} (h : ∀ k, minusHeld (env.pind k)) :
    HeldStep fuel env decClamped := by
  intro s ha
  refine ⟨_, mainIter_idle (h _).2.2.2, ?_, ?_, ?_⟩
  · cases hth : threshold { delay_ms BTN_CYCLE_DELAY s with nD := s.nD + 1 }
    · exact (heldStep_below env hth).2.1
    · exact (repeatLogic_minusHeld hth ha h).2.1
  · intro hth
    obtain ⟨g1, _, g3, g4, g5, g6⟩ :=
      repeatLogic_minusHeld (s := { delay_ms BTN_CYCLE_DELAY s with nD := s.nD + 1 }) hth ha h
    exact ⟨g1, g3, g4, g5, g6⟩
  · intro hth
    obtain ⟨g1, _, g3, g4, g5, g6⟩ :=
      heldStep_below env (s := { delay_ms BTN_CYCLE_DELAY s with nD := s.nD + 1 }) hth
    exact ⟨g1, g3, g4, g5, g6⟩

theorem heldChanges_eq (n : Nat) :
    heldChanges n = if n < 2761 then n / 251 else 11 + (n - 2761) / 51 := rfl

/-- The run of the main loop from a reset repeat state under a held-button
step: the state after `n` iterations, in closed form. -/
theorem held_run {fuel : Nat} {env : Env} {g : Nat → Nat} (hstep : HeldStep fuel env g)
    (s : State) (ha : s.auto_mode ≠ 0)
    (h0 : s.btn_1st_delay_cnt = 0 ∧ s.btn_2st_delay_cnt = 0 ∧ s.btn_1st_steps_cnt = 0 ∧
      s.btn_2st_delay_mode = 0) :
    ∀ n, ∃ s', mainLoop fuel env n s = some s' ∧ s'.auto_mode = s.auto_mode ∧
      s'.spot_delay = g^[heldChanges n] s.spot_delay ∧
      (n < 2761 → s'.btn_1st_delay_cnt = n % 251 ∧ s'.btn_2st_delay_cnt = 0 ∧
        s'.btn_1st_steps_cnt = n / 251 ∧ s'.btn_2st_delay_mode = 0) ∧
      (2761 ≤ n → s'.btn_1st_delay_cnt = 0 ∧ s'.btn_2st_delay_cnt = (n - 2761) % 51 ∧
        s'.btn_1st_steps_cnt = 10 ∧ s'.btn_2st_delay_mode = 1) := by
  intro n
  induction n with
  | zero =>
    refine ⟨s, rfl, rfl, ?_, ?_, ?_⟩
    · simp [heldChanges]
    · intro _; simpa using h0
    · intro h; omega
  | succ n ih =>
    obtain ⟨s1, hrun, hauto, hval, hlo, hhi⟩ := ih
    obtain ⟨s2, hit, hauto2, hT, hF⟩ := hstep s1 (by rw [hauto]; exact ha)
    refine ⟨s2, ?_, hauto2.trans hauto, ?_⟩
    · rw [mainLoop_succ, hrun]; exact hit
    have e10 : BTN_1ST_STEPS = 10 := rfl
    by_cases hn : n < 2761
    · obtain ⟨c1, c2, c3, c4⟩ := hlo hn
      by_cases hthr : n % 251 = 250
      · have hth : threshold s1 = true := by
          rw [threshold_iff]; left; rw [c1]; exact hthr
        obtain ⟨t1, t2, t3, t4, t5⟩ := hT hth
        have hch : heldChanges (n + 1) = heldChanges n + 1 := by
          simp only [heldChanges_eq]
          split_ifs <;> omega
        rw [e10, c3] at t4 t5
        rw [c4] at t5
        unfold u8 at t4
        refine ⟨?_, ?_, ?_⟩
        · rw [t1, hval, hch, Function.iterate_succ_apply']
        · intro h1
          split_ifs at t4 t5 <;> omega
        · intro h1
          split_ifs at t4 t5 <;> omega
      · have hth : threshold s1 = false := by
          rw [← Bool.not_eq_true, threshold_iff, c1, c2]
          simp only [BTN_1ST_DELAY, BTN_2ST_DELAY]
          omega
        obtain ⟨t1, t2, t3, t4, t5⟩ := hF hth
        have hch : heldChanges (n + 1) = heldChanges n := by
          simp only [heldChanges_eq]
          split_ifs <;> omega
        rw [c4, if_pos rfl, c1] at t2
        rw [c4, if_pos rfl, c2] at t3
        unfold u8 at t2
        refine ⟨?_, ?_, ?_⟩
        · rw [t1, hval, hch]
        · intro h1; omega
        · intro h1; omega
    · obtain ⟨c1, c2, c3, c4⟩ := hhi (by omega)
      by_cases hthr : (n - 2761) % 51 = 50
      · have hth : threshold s1 = true := by
          rw [threshold_iff]; right; rw [c2, c4]; exact ⟨hthr, by decide⟩
        obtain ⟨t1, t2, t3, t4, t5⟩ := hT hth
        have hch : heldChanges (n + 1) = heldChanges n + 1 := by
          simp only [heldChanges_eq]
          split_ifs <;> omega
        rw [e10, c3, if_pos rfl] at t4 t5
        refine ⟨?_, ?_, ?_⟩
        · rw [t1, hval, hch, Function.iterate_succ_apply']
        · intro h1; omega
        · intro h1; omega
      · have hth : threshold s1 = false := by
          rw [← Bool.not_eq_true, threshold_iff, c1, c2]
          simp only [BTN_1ST_DELAY, BTN_2ST_DELAY]
          omega
        obtain ⟨t1, t2, t3, t4, t5⟩ := hF hth
        have hch : heldChanges (n + 1) = heldChanges n := by
          simp only [heldChanges_eq]
          split_ifs <;> omega
        rw [c4, if_neg (by decide), c1] at t2
        rw [c4, if_neg (by decide), c2] at t3
        unfold u8 at t3
        refine ⟨?_, ?_, ?_⟩
        · rw [t1, hval, hch]
        · intro h1; omega
        · intro h1; omega

theorem incClamped_iterate : ∀ (c v : Nat), v + c ≤ 99 → incClamped^[c] v = v + c := by
  intro c
  induction c with
  | zero => intro v _; rfl
  | succ k ih =>
    intro v h
    rw [Function.iterate_succ_apply', ih v (by omega)]
    simp only [incClamped, u8]
    split_ifs <;> omega

theorem decClamped_iterate : ∀ (c v : Nat), c < v → v ≤ 99 → decClamped^[c] v = v - c := by
  intro c
  induction c with
  | zero => intro v _ _; rfl
  | succ k ih =>
    intro v h h99
    rw [Function.iterate_succ_apply', ih v (by omega) h99]
    simp only [decClamped, u8]
    split_ifs <;> omega

/-- At the threshold with both adjustment buttons released on every read. -/
theorem repeatLogic_released {env : Env} {s : State} (hth : threshold s = true)
    (h : ∀ k, adjustReleased (env.pind k)) :
    (repeatLogic env s).btn_1st_steps_cnt = 0 ∧ (repeatLogic env s).btn_2st_delay_mode = 0 ∧
    (repeatLogic env s).btn_2st_delay_cnt = 0 ∧ (repeatLogic env s).btn_1st_delay_cnt = 0 ∧
    (repeatLogic env s).spot_delay = s.spot_delay := by
  have hp : ∀ k, ButtonPressed (u8 (env.pind k)) BTN_PLUS_BIT = 0 := fun k => (h k).1
  have hm : ∀ k, ButtonPressed (u8 (env.pind k)) BTN_MINUS_BIT = 0 := fun k => (h k).2.1
  simp only [repeatLogic, hth, if_true, modeStep_eq, plusStep_eq, minusStep_eq, releaseStep_eq,
    hp, hm, ne_eq, not_true_eq_false, and_self, if_false, false_and]

/-! ### The refresh handler and the output bit -/

theorem setBit_bit0 (p bit : Nat) (hb : bit ≠ 0) : (setBit p bit).testBit 0 = p.testBit 0 := by
  have h : setBit p bit = (p ||| 2 ^ bit) % 2 ^ 8 := by
    simp [setBit, u8, Nat.shiftLeft_eq]
  rw [h, Nat.testBit_mod_two_pow, Nat.testBit_or, Nat.testBit_two_pow]
  simp [hb]

theorem clearBit_bit0 (p bit : Nat) (hb : bit ≠ 0) (h16 : bit < 16) :
    (clearBit p bit).testBit 0 = p.testBit 0 := by
  have h : clearBit p bit = (p &&& (65535 ^^^ 2 ^ bit)) % 2 ^ 8 := by
    have : 2 ^ bit < 65536 := by
      calc 2 ^ bit < 2 ^ 16 := Nat.pow_lt_pow_right (by decide) h16
        _ = 65536 := by norm_num
    simp [clearBit, u8, not16, u16, Nat.shiftLeft_eq, Nat.mod_eq_of_lt this]
  rw [h, Nat.testBit_mod_two_pow, Nat.testBit_and, Nat.testBit_xor, Nat.testBit_two_pow]
  have : Nat.testBit 65535 0 = true := by decide
  simp [this, hb]

/-- A refresh tick leaves bit 0 of the output port as it was. -/
theorem TIMER0_OVF_vect_bit0 (polarity : Nat) (s : State) :
    (TIMER0_OVF_vect polarity s).PORTD.testBit 0 = s.PORTD.testBit 0 := by
  have h5 : LED_COMMON_DIG2 ≠ 0 := by decide
  have h6 : LED_COMMON_DIG1 ≠ 0 := by decide
  have k5 : LED_COMMON_DIG2 < 16 := by decide
  have k6 : LED_COMMON_DIG1 < 16 := by decide
  simp only [TIMER0_OVF_vect]
  split_ifs <;>
    simp only [clearBit_bit0 _ _ h5 k5, clearBit_bit0 _ _ h6 k6, setBit_bit0 _ _ h5,
      setBit_bit0 _ _ h6]

/-! ### The refresh handler, bit by bit -/

/-- The handler as one update of the state: the common lines follow
`digselect` alone, the data port follows `auto_mode`, the buffers and
`digselect`. -/
theorem TIMER0_OVF_vect_eq (polarity : Nat) (s : State) :
    TIMER0_OVF_vect polarity s = { s with
      PORTD :=
        if s.digselect = 1 then
          (if polarity ≠ 0 then clearBit (setBit s.PORTD LED_COMMON_DIG2) LED_COMMON_DIG1
           else setBit (clearBit s.PORTD LED_COMMON_DIG2) LED_COMMON_DIG1)
        else if s.digselect = 2 then
          (if polarity ≠ 0 then clearBit (setBit s.PORTD LED_COMMON_DIG1) LED_COMMON_DIG2
           else setBit (clearBit s.PORTD LED_COMMON_DIG1) LED_COMMON_DIG2)
        else s.PORTD,
      PORTB :=
        if s.auto_mode ≠ 0 then
          (if s.digselect = 1 then
            loadData s.PORTB (if polarity ≠ 0 then s.section1 else not16 s.section1)
           else if s.digselect = 2 then
            loadData s.PORTB (if polarity ≠ 0 then s.section2 else not16 s.section2)
           else s.PORTB)
        else loadData s.PORTB (if polarity ≠ 0 then 0b01000000 else not16 0b01000000),
      digselect := if s.digselect = 1 then 2 else 1,
      irq := true } := by
  simp only [TIMER0_OVF_vect]
  split_ifs <;> rfl

theorem setBit_testBit (p b i : Nat) :
    (setBit p b).testBit i = (decide (i < 8) && (p.testBit i || decide (b = i))) := by
  have h : setBit p b = (p ||| 2 ^ b) % 2 ^ 8 := by
    simp [setBit, u8, Nat.shiftLeft_eq]
  rw [h, Nat.testBit_mod_two_pow, Nat.testBit_or, Nat.testBit_two_pow]

theorem not16_testBit (x i : Nat) :
    (not16 x).testBit i = (decide (i < 16) && !x.testBit i) := by
  have h : not16 x = (2 ^ 16 - 1) ^^^ (x % 2 ^ 16) := by
    simp [not16, u16]
  rw [h, Nat.testBit_xor, Nat.testBit_two_pow_sub_one, Nat.testBit_mod_two_pow]
  by_cases hi : i < 16 <;> simp [hi]

theorem clearBit_testBit (p b i : Nat) :
    (clearBit p b).testBit i = (decide (i < 8) && (p.testBit i && !decide (b = i))) := by
  have h : clearBit p b = (p &&& not16 (2 ^ b)) % 2 ^ 8 := by
    simp [clearBit, u8, Nat.shiftLeft_eq]
  rw [h, Nat.testBit_mod_two_pow, Nat.testBit_and, not16_testBit, Nat.testBit_two_pow]
  by_cases h8 : i < 8
  · have h16 : i < 16 := by omega
    simp [h8, h16]
  · simp [h8]

theorem loadData_testBit (p pat i : Nat) :
    (loadData p pat).testBit i
      = (decide (i < 8) && ((p.testBit i && decide (i = 7)) || pat.testBit i)) := by
  have h : loadData p pat = ((p &&& 2 ^ 7) % 2 ^ 8 ||| pat) % 2 ^ 8 := by
    simp [loadData, u8]
  rw [h, Nat.testBit_mod_two_pow, Nat.testBit_or, Nat.testBit_mod_two_pow, Nat.testBit_and,
    Nat.testBit_two_pow]
  by_cases h8 : i < 8
  · by_cases h7 : i = 7
    · subst h7; simp
    · have : ¬ 7 = i := fun h => h7 h.symm
      simp [h8, h7, this]
  · simp [h8]

/-- The low seven bits of the data port after a load are those of the
pattern. -/
theorem loadData_low (p pat : Nat) : loadData p pat % 128 = pat % 128 := by
  apply Nat.eq_of_testBit_eq
  intro i
  have e : (128 : Nat) = 2 ^ 7 := rfl
  rw [e, Nat.testBit_mod_two_pow, Nat.testBit_mod_two_pow, loadData_testBit]
  by_cases h7 : i < 7
  · have h8 : i < 8 := by omega
    have hne : ¬ i = 7 := by omega
    simp [h7, h8, hne]
  · simp [h7]

/-- The low seven bits of a complemented pattern. -/
theorem not16_low (x : Nat) : not16 x % 128 = 127 - x % 128 := by
  apply Nat.eq_of_testBit_eq
  intro i
  have e : (128 : Nat) = 2 ^ 7 := rfl
  have hx : x % 2 ^ 7 < 2 ^ 7 := Nat.mod_lt _ (by decide)
  have e2 : 127 - x % 2 ^ 7 = 2 ^ 7 - (x % 2 ^ 7 + 1) := by omega
  rw [e, Nat.testBit_mod_two_pow, not16_testBit, e2, Nat.testBit_two_pow_sub_succ hx,
    Nat.testBit_mod_two_pow]
  by_cases h7 : i < 7
  · have h16 : i < 16 := by omega
    simp [h7, h16]
  · simp [h7]

/-- In manual mode a tick loads the data port with the indicator pattern,
whatever the buffers and `digselect` hold. -/
theorem tick_manual_low (polarity : Nat) (s : State) (hm : s.auto_mode = 0) :
    (TIMER0_OVF_vect polarity s).PORTB % 128
      = (if polarity ≠ 0 then 0b1000000 else 127 - 0b1000000) := by
  rw [TIMER0_OVF_vect_eq]
  simp only [hm, ne_eq, not_true_eq_false, if_false]
  rw [loadData_low]
  split_ifs <;> rfl

/-- In auto mode a tick loads the data port with the buffer of the digit
selected by `digselect`, direct or complemented. -/
theorem tick_auto_low (polarity : Nat) (s : State) (ha : s.auto_mode ≠ 0) :
    (s.digselect = 1 → (TIMER0_OVF_vect polarity s).PORTB % 128
      = (if polarity ≠ 0 then s.section1 % 128 else 127 - s.section1 % 128)) ∧
    (s.digselect = 2 → (TIMER0_OVF_vect polarity s).PORTB % 128
      = (if polarity ≠ 0 then s.section2 % 128 else 127 - s.section2 % 128)) := by
  rw [TIMER0_OVF_vect_eq]
  constructor
  · intro hd
    simp only [ha, hd, ne_eq, not_false_eq_true, if_true]
    rw [loadData_low]
    split_ifs <;> first | rfl | exact not16_low _
  · intro hd
    have h1 : ¬ (2 : Nat) = 1 := by decide
    simp only [ha, hd, h1, ne_eq, not_false_eq_true, if_true, if_false]
    rw [loadData_low]
    split_ifs <;> first | rfl | exact not16_low _

/-- The bits 0..7 of the common/output port after a tick: the line of the
digit selected by `digselect` is high in the common-anode build and low in the
common-cathode build, the other line the opposite, every other bit as before. -/
theorem tick_PORTD_testBit (polarity : Nat) (s : State) (i : Nat) (hi : i < 8) :
    (TIMER0_OVF_vect polarity s).PORTD.testBit i =
      if s.digselect = 1 then
        (if i = LED_COMMON_DIG1 then decide (polarity = 0)
         else if i = LED_COMMON_DIG2 then decide (polarity ≠ 0) else s.PORTD.testBit i)
      else if s.digselect = 2 then
        (if i = LED_COMMON_DIG2 then decide (polarity = 0)
         else if i = LED_COMMON_DIG1 then decide (polarity ≠ 0) else s.PORTD.testBit i)
      else s.PORTD.testBit i := by
  rw [TIMER0_OVF_vect_eq]
  have e5 : LED_COMMON_DIG2 = 5 := rfl
  have e6 : LED_COMMON_DIG1 = 6 := rfl
  simp only [e5, e6]
  by_cases h1 : s.digselect = 1
  · simp only [h1, if_true]
    by_cases hp : polarity = 0
    · by_cases a : i = 6
      · subst a; simp [hp, setBit_testBit, clearBit_testBit]
      · by_cases b : i = 5
        · subst b; simp [hp, setBit_testBit, clearBit_testBit]
        · have a' : ¬ 6 = i := fun h => a h.symm
          have b' : ¬ 5 = i := fun h => b h.symm
          simp [hp, setBit_testBit, clearBit_testBit, a, b, a', b', hi]
    · by_cases a : i = 6
      · subst a; simp [hp, setBit_testBit, clearBit_testBit]
      · by_cases b : i = 5
        · subst b; simp [hp, setBit_testBit, clearBit_testBit]
        · have a' : ¬ 6 = i := fun h => a h.symm
          have b' : ¬ 5 = i := fun h => b h.symm
          simp [hp, setBit_testBit, clearBit_testBit, a, b, a', b', hi]
  · simp only [h1, if_false]
    by_cases h2 : s.digselect = 2
    · simp only [h2, if_true]
      by_cases hp : polarity = 0
      · by_cases a : i = 6
        · subst a; simp [hp, setBit_testBit, clearBit_testBit]
        · by_cases b : i = 5
          · subst b; simp [hp, setBit_testBit, clearBit_testBit]
          · have a' : ¬ 6 = i := fun h => a h.symm
            have b' : ¬ 5 = i := fun h => b h.symm
            simp [hp, setBit_testBit, clearBit_testBit, a, b, a', b', hi]
      · by_cases a : i = 6
        · subst a; simp [hp, setBit_testBit, clearBit_testBit]
        · by_cases b : i = 5
          · subst b; simp [hp, setBit_testBit, clearBit_testBit]
          · have a' : ¬ 6 = i := fun h => a h.symm
            have b' : ¬ 5 = i := fun h => b h.symm
            simp [hp, setBit_testBit, clearBit_testBit, a, b, a', b', hi]
    · simp only [h2, if_false]

/-! ### The invariant of the main loop -/

theorem enterLoop_inv (s : State) : loopInv (enterLoop s) := by
  simp only [loopInv, enterLoop, ChangeDelay_eq, loadDelay, unitsMs, DELAY_DEFAULT]
  split_ifs with h
  · exact ⟨by decide, by decide, rfl, rfl⟩
  · have h99 : u8 s.saved_value ≤ 99 := by omega
    rw [Nat.min_eq_left h99]
    exact ⟨by omega, h99, rfl, rfl⟩

theorem modeStep_inv (env : Env) (s : State) (h : loopInv s) : loopInv (modeStep env s) := by
  rw [modeStep_eq]; exact h

theorem releaseStep_inv (env : Env) (s : State) (h : loopInv s) :
    loopInv (releaseStep env s) := by
  rw [releaseStep_eq]; exact h

theorem plusStep_inv (env : Env) (s : State) (h : loopInv s) : loopInv (plusStep env s) := by
  obtain ⟨h1, h2, h3, h4⟩ := h
  rw [plusStep_eq]
  by_cases hc : (ButtonPressed (u8 (env.pind s.nD)) BTN_PLUS_BIT ≠ 0 ∧ s.auto_mode ≠ 0) ∧
      s.spot_delay + 1 ≤ 99
  · have e : u8 (s.spot_delay + 1) = s.spot_delay + 1 := by unfold u8; omega
    simp only [loopInv, if_pos hc, e, Nat.min_eq_left hc.2]
    exact ⟨by omega, hc.2, trivial, trivial⟩
  · simp only [loopInv, if_neg hc]
    exact ⟨h1, h2, h3, h4⟩

theorem minusStep_inv (env : Env) (s : State) (h : loopInv s) : loopInv (minusStep env s) := by
  obtain ⟨h1, h2, h3, h4⟩ := h
  rw [minusStep_eq]
  by_cases hc : (ButtonPressed (u8 (env.pind s.nD)) BTN_MINUS_BIT ≠ 0 ∧ s.auto_mode ≠ 0) ∧
      (s.spot_delay : Int) - 1 ≥ 1
  · have hge : 2 ≤ s.spot_delay := by have := hc.2; omega
    have e : u8 (s.spot_delay - 1) = s.spot_delay - 1 := by unfold u8; omega
    have hle : s.spot_delay - 1 ≤ 99 := by omega
    simp only [loopInv, if_pos hc, e, Nat.min_eq_left hle]
    exact ⟨by omega, hle, trivial, trivial⟩
  · simp only [loopInv, if_neg hc]
    exact ⟨h1, h2, h3, h4⟩

/-- The repeat-rate logic keeps the invariant, whatever the buttons read. -/
theorem repeatLogic_inv (env : Env) (s : State) (h : loopInv s) :
    loopInv (repeatLogic env s) := by
  unfold repeatLogic
  split_ifs
  · exact releaseStep_inv _ _ (minusStep_inv _ _ (plusStep_inv _ _ (modeStep_inv _ _ h)))
  · exact h
  · exact h

theorem mainIter_inv {fuel : Nat} {env : Env} {s s' : State} (h : loopInv s)
    (hit : mainIter fuel env s = some s') : loopInv s' := by
  simp only [mainIter, Option.map_eq_some'] at hit
  obtain ⟨s1, h1, rfl⟩ := hit
  apply repeatLogic_inv
  simp only [actionStep, readPIND] at h1
  split_ifs at h1
  · have e := actionBranch_some h1
    rw [e]
    exact h
  · cases h1
    exact h

theorem mainLoop_inv {fuel : Nat} {env : Env} :
    ∀ (n : Nat) {s s' : State}, loopInv s → mainLoop fuel env n s = some s' → loopInv s' := by
  intro n
  induction n with
  | zero => intro s s' h hr; cases hr; exact h
  | succ k ih =>
    intro s s' h hr
    simp only [mainLoop, Option.bind_eq_some] at hr
    obtain ⟨s1, h1, h2⟩ := hr
    exact ih (mainIter_inv h h1) h2

theorem main_inv {fuel : Nat} {env : Env} {n : Nat} {s s' : State}
    (h : main fuel env n s = some s') : loopInv s' := by
  simp only [main, Option.bind_eq_some] at h
  obtain ⟨s1, h1, h2⟩ := h
  simp only [startup, Option.map_eq_some'] at h1
  obtain ⟨s0, _, rfl⟩ := h1
  exact mainLoop_inv n (enterLoop_inv s0) h2

/-! ### What the main thread leaves alone -/

theorem setupMenu_frame (env : Env) :
    ∀ (fuel : Nat) (s s' : State), setupMenu env fuel s = some s' →
      s' = { s with section1 := s'.section1, section2 := s'.section2, nD := s'.nD,
                    nE := s'.nE, units := s'.units, saved_step := s'.saved_step,
                    trace := s'.trace } := by
  intro fuel
  induction fuel with
  | zero => intro s s' h; simp [setupMenu] at h
  | succ k ih =>
    intro s s' h
    simp only [setupMenu, Option.bind_eq_some] at h
    obtain ⟨s1, h1, h2⟩ := h
    obtain ⟨e1, _⟩ := adjustStep_some h1
    simp only [readPIND] at h2
    split_ifs at h2 with hm
    · have e2 := confirmSetup_some h2
      rw [e2, e1]
      rfl
    · have e2 := ih _ _ h2
      rw [e2, e1]
      rfl

theorem repeatLogic_frame (env : Env) (s : State) :
    (repeatLogic env s).digselect = s.digselect ∧ (repeatLogic env s).PORTB = s.PORTB := by
  unfold repeatLogic
  split_ifs
  · simp only [releaseStep_eq, minusStep_eq, plusStep_eq, modeStep_eq, and_self]
  · exact ⟨rfl, rfl⟩
  · exact ⟨rfl, rfl⟩

theorem mainIter_frame {fuel : Nat} {env : Env} {s s' : State}
    (hit : mainIter fuel env s = some s') :
    s'.digselect = s.digselect ∧ s'.PORTB = s.PORTB := by
  simp only [mainIter, Option.map_eq_some'] at hit
  obtain ⟨s1, h1, rfl⟩ := hit
  obtain ⟨g1, g2⟩ := repeatLogic_frame env s1
  rw [g1, g2]
  simp only [actionStep, readPIND] at h1
  split_ifs at h1
  · have e := actionBranch_some h1
    rw [e]
    exact ⟨rfl, rfl⟩
  · cases h1
    exact ⟨rfl, rfl⟩

theorem mainLoop_frame {fuel : Nat} {env : Env} :
    ∀ (n : Nat) {s s' : State}, mainLoop fuel env n s = some s' →
      s'.digselect = s.digselect ∧ s'.PORTB = s.PORTB := by
  intro n
  induction n with
  | zero => intro s s' hr; cases hr; exact ⟨rfl, rfl⟩
  | succ k ih =>
    intro s s' hr
    simp only [mainLoop, Option.bind_eq_some] at hr
    obtain ⟨s1, h1, h2⟩ := hr
    obtain ⟨a1, a2⟩ := mainIter_frame h1
    obtain ⟨b1, b2⟩ := ih h2
    exact ⟨b1.trans a1, b2.trans a2⟩

/-- The main thread never writes `digselect`, and writes the data port only
to set the pull-up of the detector pin. -/
theorem main_frame {fuel : Nat} {env : Env} {n : Nat} {s s' : State}
    (h : main fuel env n s = some s') :
    s'.digselect = s.digselect ∧ s'.PORTB = (pullUps s).PORTB := by
  simp only [main, Option.bind_eq_some] at h
  obtain ⟨s1, h1, h2⟩ := h
  obtain ⟨b1, b2⟩ := mainLoop_frame n h2
  simp only [startup, Option.map_eq_some'] at h1
  obtain ⟨s0, h0, rfl⟩ := h1
  have hfr := startupSelect_frame env 41 0 0 0 0 (loadUnits (pullUps s)) _ rfl
  have key : s0.digselect = s.digselect ∧ s0.PORTB = (pullUps s).PORTB := by
    unfold setupOrSplash at h0
    split_ifs at h0 with he
    · obtain ⟨k, _, h3⟩ := Option.bind_eq_some.mp h0
      have e := setupMenu_frame env _ _ _ h3
      rw [e]
      show (startupSelect env 41 0 0 0 0 (loadUnits (pullUps s))).2.digselect = _ ∧
        (startupSelect env 41 0 0 0 0 (loadUnits (pullUps s))).2.PORTB = _
      rw [hfr]
      exact ⟨rfl, rfl⟩
    · cases h0
      rw [splash_eq]
      show (startupSelect env 41 0 0 0 0 (loadUnits (pullUps s))).2.digselect = _ ∧
        (startupSelect env 41 0 0 0 0 (loadUnits (pullUps s))).2.PORTB = _
      rw [hfr]
      exact ⟨rfl, rfl⟩
  have e1 : (enterLoop s0).digselect = s0.digselect := by
    simp only [enterLoop, ChangeDelay_eq, loadDelay, unitsMs]
  have e2 : (enterLoop s0).PORTB = s0.PORTB := by
    simp only [enterLoop, ChangeDelay_eq, loadDelay, unitsMs]
  exact ⟨b1.trans (e1.trans key.1), b2.trans (e2.trans key.2)⟩

theorem tick_digselect (polarity : Nat) (s : State) :
    (TIMER0_OVF_vect polarity s).digselect = (if s.digselect = 1 then 2 else 1) := by
  rw [TIMER0_OVF_vect_eq]

theorem tick_iterate_digselect (polarity : Nat) :
    ∀ (n : Nat) (s : State), s.digselect = 1 ∨ s.digselect = 2 →
      ((TIMER0_OVF_vect polarity)^[n] s).digselect = 1 ∨
        ((TIMER0_OVF_vect polarity)^[n] s).digselect = 2 := by
  intro n
  induction n with
  | zero => intro s h; exact h
  | succ k ih =>
    intro s h
    rw [Function.iterate_succ_apply]
    apply ih
    rw [tick_digselect]
    split_ifs
    · exact Or.inr rfl
    · exact Or.inl rfl

/-- The two common lines after a tick, as enabled levels. -/
theorem tick_lines (polarity : Nat) (s : State) :
    (s.digselect = 1 →
      lineEnabled polarity (TIMER0_OVF_vect polarity s).PORTD LED_COMMON_DIG1 = true ∧
      lineEnabled polarity (TIMER0_OVF_vect polarity s).PORTD LED_COMMON_DIG2 = false) ∧
    (s.digselect = 2 →
      lineEnabled polarity (TIMER0_OVF_vect polarity s).PORTD LED_COMMON_DIG2 = true ∧
      lineEnabled polarity (TIMER0_OVF_vect polarity s).PORTD LED_COMMON_DIG1 = false) := by
  have b6 := tick_PORTD_testBit polarity s LED_COMMON_DIG1 (by decide)
  have b5 := tick_PORTD_testBit polarity s LED_COMMON_DIG2 (by decide)
  have n56 : ¬ LED_COMMON_DIG2 = LED_COMMON_DIG1 := by decide
  have n65 : ¬ LED_COMMON_DIG1 = LED_COMMON_DIG2 := by decide
  constructor
  · intro hd
    rw [if_pos hd, if_pos rfl] at b6
    rw [if_pos hd, if_neg n56, if_pos rfl] at b5
    unfold lineEnabled
    rw [b6, b5]
    by_cases hp : polarity = 0 <;> simp [hp]
  · intro hd
    have n1 : ¬ s.digselect = 1 := by rw [hd]; decide
    rw [if_neg n1, if_pos hd, if_neg n65, if_pos rfl] at b6
    rw [if_neg n1, if_pos hd, if_pos rfl] at b5
    unfold lineEnabled
    rw [b6, b5]
    by_cases hp : polarity = 0 <;> simp [hp]

/-! ### The mode button -/

/-- The repeat-rate logic and `auto_mode`: unchanged below the threshold, and
at the threshold negated when the read of line 332 shows the mode button
pressed. -/
theorem repeatLogic_auto_mode (env : Env) (s : State) :
    (threshold s = false → (repeatLogic env s).auto_mode = s.auto_mode) ∧
    (threshold s = true → (repeatLogic env s).auto_mode
      = (if ButtonPressed (u8 (env.pind s.nD)) BTN_MODE_BIT ≠ 0 then lnot s.auto_mode
         else s.auto_mode)) := by
  constructor
  · intro hth
    exact (heldStep_below env hth).2.1
  · intro hth
    simp only [repeatLogic, hth, if_true, releaseStep_eq, minusStep_eq, plusStep_eq,
      modeStep_eq]

/-- The action step leaves `auto_mode` and the repeat counters alone. -/
theorem actionStep_some {fuel : Nat} {env : Env} {s s1 : State}
    (h : actionStep fuel env s = some s1) :
    s1.auto_mode = s.auto_mode ∧ threshold s1 = threshold s := by
  simp only [actionStep, readPIND] at h
  split_ifs at h
  · have e := actionBranch_some h
    rw [e]
    exact ⟨rfl, rfl⟩
  · cases h
    exact ⟨rfl, rfl⟩

/-! ### The display buffers -/

theorem digit_lt : ∀ p, p ∈ digit → p < 128 := by decide

theorem digitAt_lt (i : Nat) : digitAt i < 128 := by
  unfold digitAt
  by_cases h : i < digit.length
  · rw [List.getD_eq_getElem _ _ h]
    exact digit_lt _ (List.getElem_mem _)
  · rw [List.getD_eq_default _ _ (by omega)]
    decide

theorem shift_lt (off : Nat) (h : off ≤ 5) : u8 (1 <<< off) < 128 := by
  interval_cases off <;> decide

theorem ChangeDelay_buffers (v : Nat) (s : State) : buffersOk (ChangeDelay v s) := by
  rw [ChangeDelay_eq]
  exact ⟨digitAt_lt _, digitAt_lt _⟩

theorem startupSelect_buffers (env : Env) :
    ∀ (fuel i e tmp off : Nat) (s : State), tmp < 128 → off ≤ 5 → buffersOk s →
      buffersOk (startupSelect env fuel i e tmp off s).2 := by
  intro fuel
  induction fuel with
  | zero => intro i e tmp off s _ _ h; exact h
  | succ k ih =>
    intro i e tmp off s ht ho h
    unfold startupSelect
    by_cases hc : i < 40 ∧ e = 0
    · rw [if_pos hc]
      simp only [readPIND]
      apply ih
      · exact shift_lt off ho
      · split_ifs with h5
        · unfold u8; omega
        · exact Nat.zero_le _
      · exact ⟨ht, ht⟩
    · rw [if_neg hc]
      exact h

theorem savedLoop_buffers :
    ∀ (fuel offset : Nat) (s : State), buffersOk s → buffersOk (savedLoop fuel offset s) := by
  intro fuel
  induction fuel with
  | zero => intro offset s h; exact h
  | succ k ih =>
    intro offset s h
    unfold savedLoop
    split_ifs with h6
    · apply ih
      exact ⟨shift_lt offset (by omega), h.2⟩
    · exact h

theorem setupMenu_buffers (env : Env) :
    ∀ (fuel : Nat) (s s' : State), buffersOk s → setupMenu env fuel s = some s' →
      buffersOk s' := by
  intro fuel
  induction fuel with
  | zero => intro s s' _ h; simp [setupMenu] at h
  | succ k ih =>
    intro s s' hb h
    simp only [setupMenu, Option.bind_eq_some] at h
    obtain ⟨s1, h1, h2⟩ := h
    obtain ⟨e1, _⟩ := adjustStep_some h1
    have hb1 : s1.section2 < 128 := by rw [e1]; exact hb.2
    simp only [readPIND] at h2
    split_ifs at h2 with hm
    · have e2 := confirmSetup_some h2
      rw [e2]
      refine ⟨?_, hb1⟩
      show u8 (1 <<< 5) < 128
      decide
    · exact ih _ _ ⟨digitAt_lt _, (by decide : 0b1111000 < 128)⟩ h2

theorem repeatLogic_buffers (env : Env) (s : State) (h : buffersOk s) :
    buffersOk (repeatLogic env s) := by
  have hp : ∀ t, buffersOk t → buffersOk (plusStep env t) := by
    intro t ht
    rw [plusStep_eq]
    constructor
    · show (if _ then _ else _) < 128
      split_ifs
      · exact digitAt_lt _
      · exact ht.1
    · show (if _ then _ else _) < 128
      split_ifs
      · exact digitAt_lt _
      · exact ht.2
  have hm : ∀ t, buffersOk t → buffersOk (minusStep env t) := by
    intro t ht
    rw [minusStep_eq]
    constructor
    · show (if _ then _ else _) < 128
      split_ifs
      · exact digitAt_lt _
      · exact ht.1
    · show (if _ then _ else _) < 128
      split_ifs
      · exact digitAt_lt _
      · exact ht.2
  unfold repeatLogic
  split_ifs
  · rw [releaseStep_eq]
    apply hm
    apply hp
    rw [modeStep_eq]
    exact h
  · exact h
  · exact h

theorem mainIter_buffers {fuel : Nat} {env : Env} {s s' : State} (h : buffersOk s)
    (hit : mainIter fuel env s = some s') : buffersOk s' := by
  simp only [mainIter, Option.map_eq_some'] at hit
  obtain ⟨s1, h1, rfl⟩ := hit
  apply repeatLogic_buffers
  simp only [actionStep, readPIND] at h1
  split_ifs at h1
  · have e := actionBranch_some h1
    rw [e]
    exact h
  · cases h1
    exact h

theorem mainLoop_buffers {fuel : Nat} {env : Env} :
    ∀ (n : Nat) {s s' : State}, buffersOk s → mainLoop fuel env n s = some s' →
      buffersOk s' := by
  intro n
  induction n with
  | zero => intro s s' h hr; cases hr; exact h
  | succ k ih =>
    intro s s' h hr
    simp only [mainLoop, Option.bind_eq_some] at hr
    obtain ⟨s1, h1, h2⟩ := hr
    exact ih (mainIter_buffers h h1) h2

theorem main_buffers {fuel : Nat} {env : Env} {n : Nat} {s s' : State}
    (h : main fuel env n s = some s') : buffersOk s' := by
  simp only [main, Option.bind_eq_some] at h
  obtain ⟨s1, h1, h2⟩ := h
  simp only [startup, Option.map_eq_some'] at h1
  obtain ⟨s0, _, rfl⟩ := h1
  refine mainLoop_buffers n ?_ h2
  simp only [enterLoop]
  exact ChangeDelay_buffers _ _

/-! ### The frame of the refresh handler -/

theorem tick_PORTB_eq (polarity : Nat) (s : State) :
    (TIMER0_OVF_vect polarity s).PORTB =
      if s.auto_mode ≠ 0 then
        (if s.digselect = 1 then
          loadData s.PORTB (if polarity ≠ 0 then s.section1 else not16 s.section1)
         else if s.digselect = 2 then
          loadData s.PORTB (if polarity ≠ 0 then s.section2 else not16 s.section2)
         else s.PORTB)
      else loadData s.PORTB (if polarity ≠ 0 then 0b01000000 else not16 0b01000000) := by
  rw [TIMER0_OVF_vect_eq]

theorem tick_PORTD_eq (polarity : Nat) (s : State) :
    (TIMER0_OVF_vect polarity s).PORTD =
      if s.digselect = 1 then
        (if polarity ≠ 0 then clearBit (setBit s.PORTD LED_COMMON_DIG2) LED_COMMON_DIG1
         else setBit (clearBit s.PORTD LED_COMMON_DIG2) LED_COMMON_DIG1)
      else if s.digselect = 2 then
        (if polarity ≠ 0 then clearBit (setBit s.PORTD LED_COMMON_DIG1) LED_COMMON_DIG2
         else setBit (clearBit s.PORTD LED_COMMON_DIG1) LED_COMMON_DIG2)
      else s.PORTD := by
  rw [TIMER0_OVF_vect_eq]

theorem tick_PORTD_frame (polarity : Nat) (s : State) (i : Nat) (hi : i < 8)
    (h1 : i ≠ LED_COMMON_DIG1) (h2 : i ≠ LED_COMMON_DIG2) :
    (TIMER0_OVF_vect polarity s).PORTD.testBit i = s.PORTD.testBit i := by
  rw [tick_PORTD_testBit polarity s i hi]
  simp only [if_neg h1, if_neg h2, ite_self]

theorem low_testBit7 (x : Nat) (hx : x < 128) : x.testBit 7 = false := by
  have hx' : x < 2 ^ 7 := hx
  exact Nat.testBit_lt_two_pow hx'

theorem tick_PORTB_bit7 (polarity : Nat) (s : State)
    (h : s.PORTB.testBit ZCROSSDETECT_BIT = true) :
    (TIMER0_OVF_vect polarity s).PORTB.testBit ZCROSSDETECT_BIT = true := by
  have hl : ∀ pat : Nat, Nat.testBit (loadData s.PORTB pat) ZCROSSDETECT_BIT = true := by
    intro pat
    rw [loadData_testBit, h]
    simp [ZCROSSDETECT_BIT]
  rw [tick_PORTB_eq]
  by_cases ha : s.auto_mode ≠ 0
  · rw [if_pos ha]
    by_cases hs1 : s.digselect = 1
    · rw [if_pos hs1]
      exact hl _
    · rw [if_neg hs1]
      by_cases hs2 : s.digselect = 2
      · rw [if_pos hs2]
        exact hl _
      · rw [if_neg hs2]
        exact h
  · rw [if_neg ha]
    exact hl _

theorem tick_PORTB_bit7_anode (s : State) (hd : s.digselect = 1 ∨ s.digselect = 2)
    (h1 : s.section1 < 128) (h2 : s.section2 < 128) :
    (TIMER0_OVF_vect 0 s).PORTB.testBit ZCROSSDETECT_BIT = true := by
  have hn : ∀ x : Nat, x < 128 →
      Nat.testBit (loadData s.PORTB (not16 x)) ZCROSSDETECT_BIT = true := by
    intro x hx
    rw [loadData_testBit, not16_testBit]
    simp [ZCROSSDETECT_BIT, low_testBit7 x hx]
  have h64 : (0b01000000 : Nat) < 128 := by decide
  have hp : ¬ (0 ≠ 0) := fun h => h rfl
  rw [tick_PORTB_eq]
  simp only [if_neg hp]
  by_cases ha : s.auto_mode ≠ 0
  · rw [if_pos ha]
    by_cases hs1 : s.digselect = 1
    · rw [if_pos hs1]
      exact hn _ h1
    · rw [if_neg hs1]
      have hs2 : s.digselect = 2 := by omega
      rw [if_pos hs2]
      exact hn _ h2
  · rw [if_neg ha]
    exact hn _ h64

theorem tick_PORTB_bit7_cathode (polarity : Nat) (hp : polarity ≠ 0) (s : State)
    (h1 : s.section1 < 128) (h2 : s.section2 < 128) :
    (TIMER0_OVF_vect polarity s).PORTB.testBit ZCROSSDETECT_BIT
      = s.PORTB.testBit ZCROSSDETECT_BIT := by
  have hn : ∀ x : Nat, x < 128 →
      Nat.testBit (loadData s.PORTB x) ZCROSSDETECT_BIT
        = Nat.testBit s.PORTB ZCROSSDETECT_BIT := by
    intro x hx
    rw [loadData_testBit]
    simp [ZCROSSDETECT_BIT, low_testBit7 x hx]
  have h64 : (0b01000000 : Nat) < 128 := by decide
  rw [tick_PORTB_eq]
  simp only [if_pos hp]
  by_cases ha : s.auto_mode ≠ 0
  · rw [if_pos ha]
    by_cases hs1 : s.digselect = 1
    · rw [if_pos hs1]
      exact hn _ h1
    · rw [if_neg hs1]
      by_cases hs2 : s.digselect = 2
      · rw [if_pos hs2]
        exact hn _ h2
      · rw [if_neg hs2]
  · rw [if_neg ha]
    exact hn _ h64

theorem setBit_lt (p b : Nat) : setBit p b < 256 := Nat.mod_lt _ (by decide)

theorem clearBit_lt (p b : Nat) : clearBit p b < 256 := Nat.mod_lt _ (by decide)

theorem loadData_lt (p pat : Nat) : loadData p pat < 256 := Nat.mod_lt _ (by decide)

theorem tick_ports_lt (polarity : Nat) (s : State) (hB : s.PORTB < 256) (hD : s.PORTD < 256) :
    (TIMER0_OVF_vect polarity s).PORTB < 256 ∧ (TIMER0_OVF_vect polarity s).PORTD < 256 := by
  rw [tick_PORTB_eq, tick_PORTD_eq]
  constructor
  · split_ifs <;> first | exact loadData_lt _ _ | exact hB
  · split_ifs <;> first | exact setBit_lt _ _ | exact clearBit_lt _ _ | exact hD

theorem pullUps_bit7 (s : State) : (pullUps s).PORTB.testBit ZCROSSDETECT_BIT = true := by
  have h : (pullUps s).PORTB = (s.PORTB ||| 2 ^ 7) % 2 ^ 8 := by
    simp [pullUps, u8, ZCROSSDETECT_BIT]
  rw [h, Nat.testBit_mod_two_pow, Nat.testBit_or, Nat.testBit_two_pow]
  simp [ZCROSSDETECT_BIT]

/-! ### Lookups in the digit table -/

theorem digitChecked_ok (i : Nat) (h : i < 10) : digitChecked i = Except.ok (digitAt i) := by
  interval_cases i <;> rfl

theorem digitChecked_error (i : Nat) (h : 10 ≤ i) : digitChecked i = Except.error i := by
  have hl : digit.length ≤ i := h
  simp only [digitChecked, List.getElem?_eq_none hl]

theorem ChangeDelayChecked_ok (value : Nat) (s : State) :
    ChangeDelayChecked value s = Except.ok (ChangeDelay value s) := by
  simp only [ChangeDelayChecked, ChangeDelay]
  have h0 : digitChecked 0 = Except.ok (digitAt 0) := digitChecked_ok 0 (by decide)
  split_ifs with h1 h2 h2
  · rfl
  · rw [h0]
  · rw [digitChecked_ok (value % 10) (by omega), digitChecked_ok (value / 10) (by omega)]
  · rw [h0]

theorem loadUnits_valid (s : State) : unitsValid (loadUnits s) := by
  simp only [unitsValid, loadUnits]
  have e : UNITS_DEFAULT = 1 := rfl
  split_ifs <;> omega

theorem toggleUnits_valid (s : State) (h : unitsValid s) : unitsValid (toggleUnits s) := by
  simp only [unitsValid, toggleUnits] at *
  split_ifs <;> omega

theorem adjustStep_valid {fuel : Nat} {env : Env} {s s' : State}
    (h : adjustStep fuel env s = some s') (hv : unitsValid s) : unitsValid s' := by
  obtain ⟨_, hu⟩ := adjustStep_some h
  rcases hu with e | e
  · unfold unitsValid
    rw [e]
    exact hv
  · unfold unitsValid
    rw [e]
    exact toggleUnits_valid s hv

theorem setupMenuChecked_ok (env : Env) :
    ∀ (fuel : Nat) (s : State), unitsValid s →
      setupMenuChecked env fuel s = Except.ok (setupMenu env fuel s) := by
  intro fuel
  induction fuel with
  | zero => intro s _; rfl
  | succ k ih =>
    intro s hv
    unfold setupMenuChecked setupMenu
    cases h : adjustStep k env (delay_ms BTN_CYCLE_DELAY s) with
    | none => rfl
    | some s1 =>
      have hv1 : unitsValid s1 := adjustStep_valid h hv
      simp only [readPIND, Option.some_bind]
      split_ifs with hm
      · rfl
      · have hlt : s1.units < 10 := by
          rcases hv1 with e | e <;> omega
        show (match digitChecked s1.units with
          | Except.error i => Except.error i
          | Except.ok p => setupMenuChecked env k _) = _
        rw [digitChecked_ok _ hlt]
        exact ih _ hv1

theorem splashChecked_ok (s : State) (hv : unitsValid s) :
    splashChecked s = Except.ok (splash s) := by
  have hlt : s.units < 10 := by
    rcases hv with e | e <;> omega
  simp only [splashChecked, splash, delay_ms, digitChecked_ok 1 (by decide),
    digitChecked_ok 0 (by decide), digitChecked_ok s.units hlt]

theorem setupOrSplashChecked_ok (fuel : Nat) (env : Env) (e : Nat) (s : State)
    (hv : unitsValid s) :
    setupOrSplashChecked fuel env e s = Except.ok (setupOrSplash fuel env e s) := by
  unfold setupOrSplashChecked setupOrSplash
  split_ifs with he
  · cases h : waitRelease env.pind BTN_MODE_BIT fuel s.nD with
    | none => rfl
    | some n =>
      simp only [Option.some_bind]
      exact setupMenuChecked_ok env fuel _ hv
  · rw [splashChecked_ok s hv]

theorem startupSelect_valid (env : Env) (s : State) :
    unitsValid (startupSelect env 41 0 0 0 0 (loadUnits (pullUps s))).2 := by
  have h := startupSelect_frame env 41 0 0 0 0 (loadUnits (pullUps s)) _ rfl
  unfold unitsValid
  rw [h]
  exact loadUnits_valid (pullUps s)

theorem startupChecked_ok (fuel : Nat) (env : Env) (s : State) :
    startupChecked fuel env s = Except.ok (startup fuel env s) := by
  unfold startupChecked startup
  simp only []
  rw [setupOrSplashChecked_ok fuel env _ _ (startupSelect_valid env s)]
  cases h : setupOrSplash fuel env (startupSelect env 41 0 0 0 0 (loadUnits (pullUps s))).1
      (startupSelect env 41 0 0 0 0 (loadUnits (pullUps s))).2 with
  | none => rfl
  | some s1 =>
    simp only [ChangeDelayChecked_ok, Option.map_some', enterLoop]

end Spotter

/-! ## The claims -/

namespace Spotter

/-- C1: with a timing value `v` in 1..99, a validated resolution `r` and
`auto_mode` true, once `out_on()` has returned the action branch runs the pulse
loop to its end with exactly `v * unit_ms` one-millisecond delays (`unit_ms` is
10 for `r = 1`, 100 for `r = 2`) and the first `out_off()` follows them
directly; the bound is at most 9900, so neither the `int` product nor the
`unsigned short` counter wraps. -/
theorem C1_pulse_length (fuel : Nat) (env : Env) (s s1 : State) (v r : Nat)
    (hv : 1 ≤ v ∧ v ≤ 99) (hr : r = 1 ∨ r = 2)
    (hs : s.spot_delay = v) (hu : s.units = r) (ha : s.auto_mode ≠ 0)
    (hon : out_on fuel env (unitsMs s) = some s1) :
    (unitsMs s).units_ms = (if r = 1 then 10 else 100) ∧
    v * (unitsMs s).units_ms ≤ 9900 ∧
    v * (unitsMs s).units_ms < 32768 ∧
    u16 (v * (unitsMs s).units_ms) = v * (unitsMs s).units_ms ∧
    (∀ i, i < v * (unitsMs s).units_ms → u16 (i + 1) = i + 1) ∧
    (∃ s2, timedPulse s1 = some s2 ∧
      s2.trace = s.trace ++ Event.outputOn ::
        (List.replicate (v * (unitsMs s).units_ms) (Event.delay 1) ++ [Event.outputOff])) ∧
    (∀ s', actionBranch fuel env (unitsMs s) = some s' →
      s'.trace = s.trace ++ Event.outputOn ::
        (List.replicate (v * (unitsMs s).units_ms) (Event.delay 1) ++
          [Event.outputOff, Event.outputOff, Event.delay BTN_RELEASE_HOLD,
            Event.delay (BTN_CYCLE_DELAY * 10)])) := by
  have hum : (unitsMs s).units_ms = (if r = 1 then 10 else 100) := by
    rcases hr with h | h <;> simp [unitsMs, hu, h]
  have hle : v * (unitsMs s).units_ms ≤ 9900 := by
    rw [hum]
    rcases hr with h | h <;> simp [h] <;> omega
  have hw : u16 (v * (unitsMs s).units_ms) = v * (unitsMs s).units_ms := by
    unfold u16; omega
  have h1 := out_on_some hon
  have hsd : s1.spot_delay = v := by rw [h1]; simpa [unitsMs] using hs
  have hsu : s1.units_ms = (unitsMs s).units_ms := by rw [h1]
  have hsa : s1.auto_mode ≠ 0 := by rw [h1]; simpa [unitsMs] using ha
  have hst : s1.trace = s.trace ++ [Event.outputOn] := by rw [h1]; simp [unitsMs]
  have hp := timedPulse_auto hsa (by rw [hsd, hsu]; omega)
  rw [hsd, hsu] at hp
  refine ⟨hum, hle, by omega, hw, ?_, ?_, ?_⟩
  · intro i hi
    unfold u16; omega
  · exact ⟨_, hp, by simp [out_off, hst]⟩
  · intro s' hrun
    simp only [actionBranch, Option.bind_eq_bind, hon, Option.some_bind, hp] at hrun
    rw [afterPulse_some hrun]
    simp [out_off, hst]

/-- C1, at timing value 2 with resolution FINE: twenty delay steps. -/
theorem C1_pulse_length_witness :
    ∃ s2, timedPulse pulseDemoOn = some s2 ∧
      s2.trace = [] ++ Event.outputOn ::
        (List.replicate (2 * (unitsMs pulseDemoState).units_ms) (Event.delay 1) ++
          [Event.outputOff]) :=
  (C1_pulse_length 1 envReleased pulseDemoState pulseDemoOn 2 1
    ⟨by decide, by decide⟩ (Or.inl rfl) rfl rfl (by decide) (by decide)).2.2.2.2.2.1

/-- C2 as stated fails: with the detector register at 0x00 (bit 7 clear)
`ZeroCrossWait()` returns 1 and `out_on()` goes on polling; with the register
at 0x80 (bit 7 set) it returns 0 and `out_on()` sets the output on the first
poll. -/
theorem C2_gate_low_counterexample :
    Nat.testBit 0x00 7 = false ∧ ZeroCrossWait 0x00 ≠ 0 ∧
    Nat.testBit 0x80 7 = true ∧ ZeroCrossWait 0x80 = 0 ∧
    out_on 5 envGateLow pulseDemoState = none ∧
    out_on 1 envReleased (unitsMs pulseDemoState) = some pulseDemoOn := by
  decide

/-- C2, amended: for every value of the detector input register,
`ZeroCrossWait()` returns 0 (stop waiting) exactly when bit 7 is 1 and non-zero
(keep waiting) exactly when bit 7 is 0; so a poll of `out_on()` that reads
bit 7 high sets the output at once and a poll that reads it low goes on to the
next poll. -/
theorem C2_gate_polarity (pinb : Nat) (fuel : Nat) (env : Env) (s : State) :
    (ZeroCrossWait pinb = 0 ↔ pinb.testBit 7 = true) ∧
    (ZeroCrossWait pinb ≠ 0 ↔ pinb.testBit 7 = false) ∧
    out_on (fuel + 1) env s =
      (if (u8 (env.pinb s.nB)).testBit 7 then
        some { s with PORTD := u8 (s.PORTD ||| (1 <<< OUT_SIGNAL_BIT)), irq := true,
                      nB := s.nB + 1, trace := s.trace ++ [Event.outputOn] }
      else out_on fuel env { s with nB := s.nB + 1 }) := by
  refine ⟨?_, ?_, ?_⟩
  · rw [ZeroCrossWait_eq]; cases pinb.testBit 7 <;> simp
  · rw [ZeroCrossWait_eq]; cases pinb.testBit 7 <;> simp
  · rw [out_on_succ, ZeroCrossWait_eq]
    cases (u8 (env.pinb s.nB)).testBit 7 <;> simp

/-- C3: `out_on()` has no timeout and sets the output only when the gate is
released: whenever `ZeroCrossWait()` is true on each of the first `n` polls,
after those polls the function is still in its loop with the output port
unchanged (interrupts disabled), so it has not returned; and when the next
poll finds `ZeroCrossWait()` false the output bit is set at that poll. -/
theorem C3_no_timeout (env : Env) (s : State) (n : Nat)
    (hw : ∀ i, i < n → ZeroCrossWait (u8 (env.pinb (s.nB + i))) ≠ 0) :
    out_on_polls env.pinb n (out_on_enter s)
      = { polling := true, PORTD := s.PORTD, irq := false, nB := s.nB + n } ∧
    out_on n env s = none ∧
    (ZeroCrossWait (u8 (env.pinb (s.nB + n))) = 0 → ∀ fuel, n < fuel →
      out_on fuel env s =
        some { s with PORTD := u8 (s.PORTD ||| (1 <<< OUT_SIGNAL_BIT)), irq := true,
                      nB := s.nB + n + 1, trace := s.trace ++ [Event.outputOn] }) := by
  have hp := out_on_polls_wait env.pinb n (out_on_enter s) rfl hw
  have hp' : out_on_polls env.pinb n (out_on_enter s)
      = { polling := true, PORTD := s.PORTD, irq := false, nB := s.nB + n } := by
    rw [hp]; rfl
  refine ⟨hp', ?_, ?_⟩
  · simp [out_on, hp']
  · intro hz fuel hf
    obtain ⟨k, rfl⟩ : ∃ k, fuel = n + (k + 1) := ⟨fuel - n - 1, by omega⟩
    have hq : out_on_polls env.pinb (n + (k + 1)) (out_on_enter s)
        = { polling := false, PORTD := u8 (s.PORTD ||| (1 <<< OUT_SIGNAL_BIT)), irq := true,
            nB := s.nB + n + 1 } := by
      rw [out_on_polls_add, hp', out_on_polls]
      have h1 : out_on_poll env.pinb
          { polling := true, PORTD := s.PORTD, irq := false, nB := s.nB + n }
          = { polling := false, PORTD := u8 (s.PORTD ||| (1 <<< OUT_SIGNAL_BIT)), irq := true,
              nB := s.nB + n + 1 } := by
        simp [out_on_poll, hz]
      rw [h1, out_on_polls_done _ _ _ rfl]
    simp [out_on, hq]

/-- C3 with three polls that find the detector pin low: still polling, the
output port untouched; the fourth poll finds the pin high and sets the output. -/
theorem C3_no_timeout_witness :
    out_on_polls envGateLate.pinb 3 (out_on_enter pulseDemoState)
      = { polling := true, PORTD := pulseDemoState.PORTD, irq := false,
          nB := pulseDemoState.nB + 3 } ∧
    out_on 3 envGateLate pulseDemoState = none ∧
    out_on 4 envGateLate pulseDemoState = some gateLateOn :=
  have h := C3_no_timeout envGateLate pulseDemoState 3 (by decide)
  ⟨h.1, h.2.1, h.2.2 (by decide) 4 (by decide)⟩

/-- C4: `out_off()` clears bit 0 of the output port whatever the port held
(and keeps bits 1..7); whenever the action branch of the main loop completes,
in auto mode or not, the output bit is low; hence a main loop entered with the
output low has the output low after every number of completed iterations.  A
tick of the refresh handler, whenever it comes, leaves that bit as it was. -/
theorem C4_output_low (fuel : Nat) (env : Env) (n : Nat) (p s s1 s0 s2 : State)
    (polarity : Nat)
    (hact : actionBranch fuel env s = some s1)
    (hlow : s0.PORTD.testBit 0 = false)
    (hloop : mainLoop fuel env n s0 = some s2) :
    (out_off p).PORTD.testBit 0 = false ∧
    (∀ i, i ≠ 0 → i < 8 → (out_off p).PORTD.testBit i = p.PORTD.testBit i) ∧
    s1.PORTD.testBit 0 = false ∧
    s2.PORTD.testBit 0 = false ∧
    (TIMER0_OVF_vect polarity p).PORTD.testBit 0 = p.PORTD.testBit 0 :=
  ⟨out_off_bit0 _, fun i h0 h8 => out_off_bits _ i h0 h8, actionBranch_PORTD hact,
    mainLoop_PORTD n hlow hloop, TIMER0_OVF_vect_bit0 polarity p⟩

/-- C4 on a manual-mode action branch and on two iterations in auto mode, the
first of which fires a pulse. -/
theorem C4_output_low_witness :
    manualAfterAction.PORTD.testBit 0 = false ∧ autoAfterTwo.PORTD.testBit 0 = false :=
  have h := C4_output_low 1 envAction 2 manualDemoState
    { manualDemoState with nD := 1 } manualAfterAction (unitsMs pulseDemoState) autoAfterTwo
    LED_POLARITY (by decide) (by decide) (by decide)
  ⟨h.2.2.1, h.2.2.2.1⟩

/-- C5: in the threshold branch of the main loop with `auto_mode` true, when
every read shows only the plus button pressed a timing value of 99 stays 99
and a value `v` in 1..98 becomes `v + 1`; when every read shows only the minus
button pressed a value of 1 stays 1 and a value `v` in 2..99 becomes `v - 1`. -/
theorem C5_clamp (env : Env) (s : State) (v : Nat)
    (hth : threshold s = true) (ha : s.auto_mode ≠ 0)
    (hv : 1 ≤ v ∧ v ≤ 99) (hs : s.spot_delay = v) :
    ((∀ k, plusHeld (env.pind k)) →
      (repeatLogic env s).spot_delay = (if v = 99 then 99 else v + 1)) ∧
    ((∀ k, minusHeld (env.pind k)) →
      (repeatLogic env s).spot_delay = (if v = 1 then 1 else v - 1)) := by
  constructor
  · intro h
    rw [(repeatLogic_plusHeld hth ha h).1, hs]
    unfold u8
    split_ifs <;> omega
  · intro h
    rw [(repeatLogic_minusHeld hth ha h).1, hs]
    unfold u8
    split_ifs <;> omega

/-- C5 at the two clamps: 99 with plus held stays 99, 1 with minus held
stays 1. -/
theorem C5_clamp_witness :
    (repeatLogic envPlus (thresholdState 99)).spot_delay = (if 99 = 99 then 99 else 99 + 1) ∧
    (repeatLogic envMinus (thresholdState 1)).spot_delay = (if 1 = 1 then 1 else 1 - 1) :=
  ⟨(C5_clamp envPlus (thresholdState 99) 99 rfl (by decide) ⟨by decide, by decide⟩ rfl).1
      (fun _ => (⟨by decide, by decide, by decide, by decide⟩ : plusHeld 0x1C)),
   (C5_clamp envMinus (thresholdState 1) 1 rfl (by decide) ⟨by decide, by decide⟩ rfl).2
      (fun _ => (⟨by decide, by decide, by decide, by decide⟩ : minusHeld 0x16))⟩

/-- C6: for every stored byte `b` the timing value loaded at startup is `b`
when `1 <= b <= 99` and 50 otherwise, and for every stored byte `u` the
resolution loaded at startup is `u` when `u` is 1 or 2 and 1 (FINE) otherwise;
the value with which `main` then enters its loop is that timing value. -/
theorem C6_load_defaults (b u : Nat) (hb : b < 256) (hu : u < 256) (s : State)
    (hsv : s.saved_value = b) (hss : s.saved_step = u) :
    (loadDelay s).spot_delay = (if 1 ≤ b ∧ b ≤ 99 then b else 50) ∧
    (loadUnits s).units = (if u = 1 ∨ u = 2 then u else 1) ∧
    (∀ fuel env s', startup fuel env s = some s' →
      s'.spot_delay = (if 1 ≤ b ∧ b ≤ 99 then b else 50)) := by
  have h1 : (loadDelay s).spot_delay = (if 1 ≤ b ∧ b ≤ 99 then b else 50) := by
    simp only [loadDelay, hsv, u8, DELAY_DEFAULT]
    split_ifs <;> omega
  refine ⟨h1, ?_, ?_⟩
  · simp only [loadUnits, hss, u8, UNITS_DEFAULT]
    split_ifs <;> omega
  · intro fuel env s' h
    rw [(startup_some h).1, h1]

/-- C6 on the stored bytes 0 and 3: the loop is entered with the timing value
50 and the resolution loads as 1. -/
theorem C6_load_defaults_witness :
    (loadDelay (resetState 0 3)).spot_delay = (if 1 ≤ 0 ∧ 0 ≤ 99 then 0 else 50) ∧
    (loadUnits (resetState 0 3)).units = (if 3 = 1 ∨ 3 = 2 then 3 else 1) ∧
    bootDemoState.spot_delay = (if 1 ≤ 0 ∧ 0 ≤ 99 then 0 else 50) :=
  have h := C6_load_defaults 0 3 (by decide) (by decide) (resetState 0 3) rfl rfl
  ⟨h.1, h.2.1, h.2.2 1 envReleased bootDemoState (by decide)⟩

/-- C7: over the two persisted bytes, when the setup menu is left with
resolution `r` in {1, 2} and the store ready, and an action branch completes
with timing value `v` in 1..99 and the store ready, then `saved_step` holds
`r`, `saved_value` holds `v`, neither write touches the other byte, and the
startup loads applied to a machine reset with these bytes give back `r` and
`v`. -/
theorem C7_roundtrip (fuel : Nat) (env : Env) (t t1 s s1 : State) (v r : Nat)
    (hv : 1 ≤ v ∧ v ≤ 99) (hr : r = 1 ∨ r = 2)
    (hsetup : setupMenu env fuel t = some t1) (hready1 : env.ee_ready t.nE = true)
    (hunits : t1.units = r)
    (hs : s.spot_delay = v)
    (hact : actionBranch fuel env s = some s1) (hready2 : env.ee_ready s.nE = true) :
    t1.saved_step = r ∧ t1.saved_value = t.saved_value ∧
    s1.saved_value = v ∧ s1.saved_step = s.saved_step ∧
    (∀ x, (loadUnits (resetState x t1.saved_step)).units = r) ∧
    (∀ y, (loadDelay (resetState s1.saved_value y)).spot_delay = v) ∧
    (s.saved_step = t1.saved_step →
      (loadUnits (resetState s1.saved_value s1.saved_step)).units = r ∧
      (loadDelay (resetState s1.saved_value s1.saved_step)).spot_delay = v) := by
  obtain ⟨g1, _, g3, _⟩ := setupMenu_store env fuel t t1 hsetup
  have hstep : t1.saved_step = r := by
    rw [g3, hready1, if_pos rfl, hunits]
    unfold u8; omega
  have e := actionBranch_some hact
  have hval : s1.saved_value = v := by
    rw [e]
    simp only [hready2, if_true, hs]
    unfold u8; omega
  have hkeep : s1.saved_step = s.saved_step := by rw [e]
  have hlu : ∀ x, (loadUnits (resetState x r)).units = r := by
    intro x
    simp only [loadUnits, resetState, u8, UNITS_DEFAULT]
    split_ifs <;> omega
  have hld : ∀ y, (loadDelay (resetState v y)).spot_delay = v := by
    intro y
    simp only [loadDelay, resetState, u8, DELAY_DEFAULT]
    split_ifs <;> omega
  refine ⟨hstep, g1, hval, hkeep, ?_, ?_, ?_⟩
  · rw [hstep]; exact hlu
  · rw [hval]; exact hld
  · intro hk
    rw [hkeep, hk, hstep, hval]
    exact ⟨hlu v, hld r⟩

/-- C7 with timing value 42 and resolution COARSE: the setup menu toggles the
resolution to 2 and stores it, the action branch stores 42, and the reload
gives 2 and 42. -/
theorem C7_roundtrip_witness :
    (loadUnits (resetState storeDemoDone.saved_value storeDemoDone.saved_step)).units = 2 ∧
    (loadDelay (resetState storeDemoDone.saved_value storeDemoDone.saved_step)).spot_delay
      = 42 :=
  (C7_roundtrip 3 envSetup setupDemoState setupDemoDone storeDemoState storeDemoDone 42 2
    ⟨by decide, by decide⟩ (Or.inr rfl) (by decide) rfl rfl rfl (by decide) rfl).2.2.2.2.2.2 rfl

/-- C8: for every `v` in 1..99 `ChangeDelay(v)` sets `section2` to
`digit[v / 10]` and `section1` to `digit[v % 10]` (both inside the table); the
ten table entries are pairwise distinct, decoding the two patterns through the
table gives tens and units with `10 * t + u = v`, and two values in 1..99 with
the same pair of patterns are equal. -/
theorem C8_encode_roundtrip (v : Nat) (hv : 1 ≤ v ∧ v ≤ 99) (s : State) :
    digit[v / 10]? = some (ChangeDelay v s).section2 ∧
    digit[v % 10]? = some (ChangeDelay v s).section1 ∧
    digit.length = 10 ∧ digit.Nodup ∧
    10 * decodeDigit (ChangeDelay v s).section2 + decodeDigit (ChangeDelay v s).section1 = v ∧
    (∀ w s', 1 ≤ w ∧ w ≤ 99 →
      (ChangeDelay w s').section2 = (ChangeDelay v s).section2 →
      (ChangeDelay w s').section1 = (ChangeDelay v s).section1 → w = v) := by
  have hsec : ∀ (w : Nat) (t : State), w ≤ 99 →
      (ChangeDelay w t).section2 = digitAt (w / 10) ∧
      (ChangeDelay w t).section1 = digitAt (w % 10) := by
    intro w t hw
    rw [ChangeDelay_eq, Nat.min_eq_left hw]
    exact ⟨rfl, rfl⟩
  obtain ⟨h2, h1⟩ := hsec v s hv.2
  have hdec := decode_encode v (by omega)
  refine ⟨?_, ?_, rfl, digit_nodup, ?_, ?_⟩
  · rw [h2]; exact digit_lookup _ (by omega)
  · rw [h1]; exact digit_lookup _ (Nat.mod_lt _ (by decide))
  · rw [h2, h1]; exact hdec
  · intro w s' hw e2 e1
    obtain ⟨g2, g1⟩ := hsec w s' hw.2
    have hdw := decode_encode w (by omega)
    rw [← g2, ← g1, e2, e1, h2, h1, hdec] at hdw
    exact hdw.symm

/-- C8 at 42: the patterns of 4 and 2, decoded back to 42. -/
theorem C8_encode_roundtrip_witness :
    10 * decodeDigit (ChangeDelay 42 pulseDemoState).section2
      + decodeDigit (ChangeDelay 42 pulseDemoState).section1 = 42 :=
  (C8_encode_roundtrip 42 ⟨by decide, by decide⟩ pulseDemoState).2.2.2.2.1

/-- C9 as stated fails: with the plus button held from the reset repeat state
at timing value 20, the value has changed ten times after 2510 iterations and
the fast-mode flag is still off; 51 iterations later (the fast spacing) the
value is unchanged; the eleventh change comes 251 iterations after the tenth,
once more on the first-stage counter reaching 250, in the iteration that sets
the fast-mode flag. -/
theorem C9_eleventh_change_counterexample :
    (mainLoop 0 envPlus 2510 (heldStart 20)).map
        (fun s => (s.spot_delay, s.btn_2st_delay_mode)) = some (30, 0) ∧
    (mainLoop 0 envPlus (2510 + 51) (heldStart 20)).map
        (fun s => (s.spot_delay, s.btn_2st_delay_mode)) = some (30, 0) ∧
    (mainLoop 0 envPlus (2510 + 250) (heldStart 20)).map
        (fun s => (s.spot_delay, s.btn_1st_delay_cnt, s.btn_2st_delay_mode)) = some (30, 250, 0) ∧
    (mainLoop 0 envPlus (2510 + 251) (heldStart 20)).map
        (fun s => (s.spot_delay, s.btn_2st_delay_mode)) = some (31, 1) := by
  have hp : ∀ k, plusHeld (envPlus.pind k) :=
    fun _ => (⟨by decide, by decide, by decide, by decide⟩ : plusHeld 0x1C)
  have run := held_run (plusHeld_step 0 hp) (heldStart 20) (by decide)
    ⟨rfl, rfl, rfl, rfl⟩
  have hv : ∀ c, c ≤ 79 → incClamped^[c] (heldStart 20).spot_delay = 20 + c :=
    fun c hc => incClamped_iterate c 20 (by omega)
  refine ⟨?_, ?_, ?_, ?_⟩
  · obtain ⟨s', hrun, _, hval, hlo, _⟩ := run 2510
    obtain ⟨_, _, _, c4⟩ := hlo (by decide)
    rw [hrun, Option.map_some', hval, c4, heldChanges_eq, hv _ (by decide)]
    rfl
  · obtain ⟨s', hrun, _, hval, hlo, _⟩ := run (2510 + 51)
    obtain ⟨_, _, _, c4⟩ := hlo (by decide)
    rw [hrun, Option.map_some', hval, c4, heldChanges_eq, hv _ (by decide)]
    rfl
  · obtain ⟨s', hrun, _, hval, hlo, _⟩ := run (2510 + 250)
    obtain ⟨c1, _, _, c4⟩ := hlo (by decide)
    rw [hrun, Option.map_some', hval, c1, c4, heldChanges_eq, hv _ (by decide)]
    rfl
  · obtain ⟨s', hrun, _, hval, _, hhi⟩ := run (2510 + 251)
    obtain ⟨_, _, _, c4⟩ := hhi (by decide)
    rw [hrun, Option.map_some', hval, c4, heldChanges_eq, hv _ (by decide)]
    rfl

/-- C9, amended: from the reset repeat state with `auto_mode` true, one
adjustment button held on every read, the action and mode buttons never
pressed and the timing value away from its clamp, the main loop returns after
every number `n` of iterations with the value changed `heldChanges n` times:
once every `BTN_1ST_DELAY + 1` iterations for the first `BTN_1ST_STEPS + 1`
changes, of which the first `BTN_1ST_STEPS` are counted by the step counter
with the fast-mode flag off and the last sets the flag, and once every
`BTN_2ST_DELAY + 1` iterations afterwards. -/
theorem C9_repeat_acceleration (fuel : Nat) (env : Env) (s : State) (v n : Nat)
    (h0 : s.btn_1st_delay_cnt = 0 ∧ s.btn_2st_delay_cnt = 0 ∧ s.btn_1st_steps_cnt = 0 ∧
      s.btn_2st_delay_mode = 0)
    (ha : s.auto_mode ≠ 0) (hs : s.spot_delay = v) :
    ((∀ k, plusHeld (env.pind k)) → v + heldChanges n ≤ 99 →
      ∃ s', mainLoop fuel env n s = some s' ∧ s'.spot_delay = v + heldChanges n ∧
        s'.btn_1st_steps_cnt = min (heldChanges n) BTN_1ST_STEPS ∧
        s'.btn_2st_delay_mode = (if heldChanges n ≤ BTN_1ST_STEPS then 0 else 1)) ∧
    ((∀ k, minusHeld (env.pind k)) → heldChanges n < v → v ≤ 99 →
      ∃ s', mainLoop fuel env n s = some s' ∧ s'.spot_delay = v - heldChanges n ∧
        s'.btn_1st_steps_cnt = min (heldChanges n) BTN_1ST_STEPS ∧
        s'.btn_2st_delay_mode = (if heldChanges n ≤ BTN_1ST_STEPS then 0 else 1)) ∧
    (∀ k r, k ≤ BTN_1ST_STEPS → r ≤ BTN_1ST_DELAY →
      heldChanges ((BTN_1ST_DELAY + 1) * k + r) = k) ∧
    (∀ j r, r ≤ BTN_2ST_DELAY →
      heldChanges ((BTN_1ST_DELAY + 1) * (BTN_1ST_STEPS + 1) + (BTN_2ST_DELAY + 1) * j + r)
        = BTN_1ST_STEPS + 1 + j) := by
  have cnt : ∀ s' : State,
      (n < 2761 → s'.btn_1st_delay_cnt = n % 251 ∧ s'.btn_2st_delay_cnt = 0 ∧
        s'.btn_1st_steps_cnt = n / 251 ∧ s'.btn_2st_delay_mode = 0) →
      (2761 ≤ n → s'.btn_1st_delay_cnt = 0 ∧ s'.btn_2st_delay_cnt = (n - 2761) % 51 ∧
        s'.btn_1st_steps_cnt = 10 ∧ s'.btn_2st_delay_mode = 1) →
      s'.btn_1st_steps_cnt = min (heldChanges n) BTN_1ST_STEPS ∧
        s'.btn_2st_delay_mode = (if heldChanges n ≤ BTN_1ST_STEPS then 0 else 1) := by
    intro s' hlo hhi
    have e10 : BTN_1ST_STEPS = 10 := rfl
    rw [e10, heldChanges_eq]
    by_cases hn : n < 2761
    · obtain ⟨_, _, c3, c4⟩ := hlo hn
      rw [if_pos hn, c3, c4]
      constructor
      · omega
      · rw [if_pos (by omega)]
    · obtain ⟨_, _, c3, c4⟩ := hhi (by omega)
      rw [if_neg hn, c3, c4]
      constructor
      · omega
      · rw [if_neg (by omega)]
  refine ⟨?_, ?_, ?_, ?_⟩
  · intro h hc
    obtain ⟨s', hrun, _, hval, hlo, hhi⟩ := held_run (plusHeld_step fuel h) s ha h0 n
    refine ⟨s', hrun, ?_, cnt s' hlo hhi⟩
    rw [hval, hs, incClamped_iterate _ _ hc]
  · intro h hc h99
    obtain ⟨s', hrun, _, hval, hlo, hhi⟩ := held_run (minusHeld_step fuel h) s ha h0 n
    refine ⟨s', hrun, ?_, cnt s' hlo hhi⟩
    rw [hval, hs, decClamped_iterate _ _ hc h99]
  · intro k r hk hr
    have e1 : BTN_1ST_STEPS = 10 := rfl
    have e2 : BTN_1ST_DELAY = 250 := rfl
    rw [e1] at hk
    rw [e2] at hr
    rw [heldChanges_eq, e2]
    split_ifs <;> omega
  · intro j r hr
    have e1 : BTN_1ST_STEPS = 10 := rfl
    have e2 : BTN_1ST_DELAY = 250 := rfl
    have e3 : BTN_2ST_DELAY = 50 := rfl
    rw [e3] at hr
    rw [heldChanges_eq, e1, e2, e3]
    split_ifs <;> omega

/-- C9 after 2761 iterations from timing value 20, with the plus button held
and with the minus button held: eleven changes, the fast-mode flag on. -/
theorem C9_repeat_acceleration_witness :
    (∃ s', mainLoop 0 envPlus 2761 (heldStart 20) = some s' ∧
      s'.spot_delay = 20 + heldChanges 2761 ∧
      s'.btn_1st_steps_cnt = min (heldChanges 2761) BTN_1ST_STEPS ∧
      s'.btn_2st_delay_mode = (if heldChanges 2761 ≤ BTN_1ST_STEPS then 0 else 1)) ∧
    (∃ s', mainLoop 0 envMinus 2761 (heldStart 20) = some s' ∧
      s'.spot_delay = 20 - heldChanges 2761 ∧
      s'.btn_1st_steps_cnt = min (heldChanges 2761) BTN_1ST_STEPS ∧
      s'.btn_2st_delay_mode = (if heldChanges 2761 ≤ BTN_1ST_STEPS then 0 else 1)) :=
  ⟨(C9_repeat_acceleration 0 envPlus (heldStart 20) 20 2761 ⟨rfl, rfl, rfl, rfl⟩ (by decide)
      rfl).1 (fun _ => (⟨by decide, by decide, by decide, by decide⟩ : plusHeld 0x1C))
      (by decide),
   (C9_repeat_acceleration 0 envMinus (heldStart 20) 20 2761 ⟨rfl, rfl, rfl, rfl⟩ (by decide)
      rfl).2.1 (fun _ => (⟨by decide, by decide, by decide, by decide⟩ : minusHeld 0x16))
      (by decide) (by decide)⟩

/-- C10 as stated fails: in the fast stage between two thresholds
(second-stage counter 7, step counter 10, fast-mode flag on) an iteration in
which no button reads pressed leaves the step counter at 10 and the flag on
and advances the second-stage counter to 8. -/
theorem C10_no_reset_counterexample :
    (mainIter 0 envReleased fastStageState).map
        (fun s => (s.btn_1st_steps_cnt, s.btn_2st_delay_mode, s.btn_2st_delay_cnt))
      = some (10, 1, 8) := by
  decide

/-- C10, amended: an iteration of the main loop in which the action, plus and
minus buttons read released returns, and it resets the repeat state exactly
when it is a threshold iteration (first-stage counter at `BTN_1ST_DELAY`, or
fast mode on and second-stage counter at `BTN_2ST_DELAY`): it then ends with
the step counter 0, the fast-mode flag off and both delay counters 0; in any
other iteration the step counter and the fast-mode flag are unchanged and only
the delay counter of the current stage advances by one. -/
theorem C10_release_reset (fuel : Nat) (env : Env) (s : State)
    (h : ∀ k, adjustReleased (env.pind k)) :
    ∃ s', mainIter fuel env s = some s' ∧
      (threshold s = true →
        s'.btn_1st_steps_cnt = 0 ∧ s'.btn_2st_delay_mode = 0 ∧ s'.btn_2st_delay_cnt = 0 ∧
        s'.btn_1st_delay_cnt = 0) ∧
      (threshold s = false →
        s'.btn_1st_steps_cnt = s.btn_1st_steps_cnt ∧
        s'.btn_2st_delay_mode = s.btn_2st_delay_mode ∧
        s'.btn_1st_delay_cnt = (if s.btn_2st_delay_mode = 0 then u8 (s.btn_1st_delay_cnt + 1)
          else s.btn_1st_delay_cnt) ∧
        s'.btn_2st_delay_cnt = (if s.btn_2st_delay_mode = 0 then s.btn_2st_delay_cnt
          else u8 (s.btn_2st_delay_cnt + 1))) := by
  refine ⟨_, mainIter_idle (h _).2.2, ?_, ?_⟩
  · intro hth
    obtain ⟨g1, g2, g3, g4, _⟩ :=
      repeatLogic_released (s := { delay_ms BTN_CYCLE_DELAY s with nD := s.nD + 1 }) hth h
    exact ⟨g1, g2, g3, g4⟩
  · intro hth
    obtain ⟨_, _, g3, g4, g5, g6⟩ :=
      heldStep_below env (s := { delay_ms BTN_CYCLE_DELAY s with nD := s.nD + 1 }) hth
    exact ⟨g5, g6, g3, g4⟩

/-- C10 at the fast threshold with every button released: the repeat state is
reset in that iteration. -/
theorem C10_release_reset_witness :
    ∃ s', mainIter 0 envReleased fastThresholdState = some s' ∧
      (threshold fastThresholdState = true →
        s'.btn_1st_steps_cnt = 0 ∧ s'.btn_2st_delay_mode = 0 ∧ s'.btn_2st_delay_cnt = 0 ∧
        s'.btn_1st_delay_cnt = 0) :=
  have h := C10_release_reset 0 envReleased fastThresholdState
    (fun _ => (⟨by decide, by decide, by decide⟩ : adjustReleased 0xFF))
  h.imp (fun _ hs => ⟨hs.1, hs.2.1⟩)

/-- C11 as stated fails: in manual mode, after the action branch has completed
with the button released, `auto_mode` is still false and a refresh tick loads
the data port with the indicator pattern (63 in the common-anode build), not
with the pattern of the timing value (36, the complement of the digit 2); the
second tick of the pair does the same (63, not 64, the complement of the
digit 0). -/
theorem C11_indicator_stays_counterexample :
    (actionBranch 1 envAction manualShownState).map (fun s =>
        (s.auto_mode, (TIMER0_OVF_vect LED_POLARITY s).PORTB % 128, 127 - s.section1,
          (TIMER0_OVF_vect LED_POLARITY (TIMER0_OVF_vect LED_POLARITY s)).PORTB % 128,
          127 - s.section2))
      = some (0, 63, 36, 63, 64) := by
  decide

/-- C11, amended: with `auto_mode` false, a refresh tick outputs the fixed
indicator pattern while the action button is held and still after the action
branch has completed, because the action branch never writes `auto_mode` (nor
the buffers); the handler outputs the digit patterns of `section1` and
`section2` exactly when `auto_mode` is true. -/
theorem C11_manual_indicator (fuel : Nat) (env : Env) (s s' : State) (polarity : Nat)
    (hm : s.auto_mode = 0) (hact : actionBranch fuel env s = some s') :
    (∀ s1, out_on fuel env s = some s1 → s1.auto_mode = 0 ∧
      (TIMER0_OVF_vect polarity s1).PORTB % 128
        = (if polarity ≠ 0 then 0b1000000 else 127 - 0b1000000)) ∧
    s'.auto_mode = 0 ∧ s'.section1 = s.section1 ∧ s'.section2 = s.section2 ∧
    (TIMER0_OVF_vect polarity s').PORTB % 128
      = (if polarity ≠ 0 then 0b1000000 else 127 - 0b1000000) ∧
    (∀ t : State, t.auto_mode ≠ 0 →
      (t.digselect = 1 → (TIMER0_OVF_vect polarity t).PORTB % 128
        = (if polarity ≠ 0 then t.section1 % 128 else 127 - t.section1 % 128)) ∧
      (t.digselect = 2 → (TIMER0_OVF_vect polarity t).PORTB % 128
        = (if polarity ≠ 0 then t.section2 % 128 else 127 - t.section2 % 128))) := by
  have e := actionBranch_some hact
  have ha : s'.auto_mode = 0 := by rw [e]; exact hm
  refine ⟨?_, ha, by rw [e], by rw [e], tick_manual_low polarity s' ha,
    fun t ht => tick_auto_low polarity t ht⟩
  intro s1 h1
  have e1 := out_on_some h1
  have ha1 : s1.auto_mode = 0 := by rw [e1]; exact hm
  exact ⟨ha1, tick_manual_low polarity s1 ha1⟩

/-- C11 on a manual-mode action branch with the timing value 2 on display:
the tick after the branch still gives the indicator pattern. -/
theorem C11_manual_indicator_witness :
    manualAfterShown.auto_mode = 0 ∧
    (TIMER0_OVF_vect LED_POLARITY manualAfterShown).PORTB % 128
      = (if LED_POLARITY ≠ 0 then 0b1000000 else 127 - 0b1000000) :=
  have h := C11_manual_indicator 1 envAction manualShownState manualAfterShown LED_POLARITY
    (by decide) (by decide)
  ⟨h.2.1, h.2.2.2.2.1⟩

/-- C12 as stated fails on the segment data: with the pattern of the digit 2
(91) in `section1` and digit 1 selected, the common-anode build
(`LED_POLARITY = 0`) writes the complement 36 into the low 7 bits of the data
port, not the pattern, and the common-cathode build (`LED_POLARITY = 1`)
writes the pattern 91, not its complement. -/
theorem C12_data_swapped_counterexample :
    autoShownState.digselect = 1 ∧ autoShownState.section1 = 91 ∧
    (TIMER0_OVF_vect 0 autoShownState).PORTB % 128 = 127 - 91 ∧
    (TIMER0_OVF_vect 1 autoShownState).PORTB % 128 = 91 := by
  decide

/-- C12, amended: in auto mode, with the buffers below 128, a refresh tick in
the common-anode configuration (`LED_POLARITY = 0`) writes the bitwise
complement of the active digit's segment pattern into the low 7 bits of the
data port and drives that digit's common line high; in the common-cathode
configuration (`LED_POLARITY` non-zero) it writes the segment pattern directly
and drives that digit's common line low. -/
theorem C12_drive_polarity (s : State) (polarity : Nat) (ha : s.auto_mode ≠ 0)
    (h1 : s.section1 < 128) (h2 : s.section2 < 128) (hp : polarity ≠ 0) :
    (s.digselect = 1 →
      (TIMER0_OVF_vect 0 s).PORTB % 128 = 127 - s.section1 ∧
      (TIMER0_OVF_vect 0 s).PORTD.testBit LED_COMMON_DIG1 = true) ∧
    (s.digselect = 2 →
      (TIMER0_OVF_vect 0 s).PORTB % 128 = 127 - s.section2 ∧
      (TIMER0_OVF_vect 0 s).PORTD.testBit LED_COMMON_DIG2 = true) ∧
    (s.digselect = 1 →
      (TIMER0_OVF_vect polarity s).PORTB % 128 = s.section1 ∧
      (TIMER0_OVF_vect polarity s).PORTD.testBit LED_COMMON_DIG1 = false) ∧
    (s.digselect = 2 →
      (TIMER0_OVF_vect polarity s).PORTB % 128 = s.section2 ∧
      (TIMER0_OVF_vect polarity s).PORTD.testBit LED_COMMON_DIG2 = false) := by
  have m1 : s.section1 % 128 = s.section1 := Nat.mod_eq_of_lt h1
  have m2 : s.section2 % 128 = s.section2 := Nat.mod_eq_of_lt h2
  have a0 := tick_auto_low 0 s ha
  have ap := tick_auto_low polarity s ha
  refine ⟨?_, ?_, ?_, ?_⟩
  · intro hd
    refine ⟨?_, ?_⟩
    · rw [a0.1 hd, m1]; rfl
    · rw [tick_PORTD_testBit 0 s _ (by decide), if_pos hd, if_pos rfl]; rfl
  · intro hd
    have n1 : ¬ s.digselect = 1 := by rw [hd]; decide
    refine ⟨?_, ?_⟩
    · rw [a0.2 hd, m2]; rfl
    · rw [tick_PORTD_testBit 0 s _ (by decide), if_neg n1, if_pos hd, if_pos rfl]; rfl
  · intro hd
    refine ⟨?_, ?_⟩
    · rw [ap.1 hd, m1, if_pos hp]
    · rw [tick_PORTD_testBit polarity s _ (by decide), if_pos hd, if_pos rfl]
      exact decide_eq_false hp
  · intro hd
    have n1 : ¬ s.digselect = 1 := by rw [hd]; decide
    refine ⟨?_, ?_⟩
    · rw [ap.2 hd, m2, if_pos hp]
    · rw [tick_PORTD_testBit polarity s _ (by decide), if_neg n1, if_pos hd, if_pos rfl]
      exact decide_eq_false hp

/-- C12 with the digit 2 in `section1` and digit 1 selected. -/
theorem C12_drive_polarity_witness :
    ((TIMER0_OVF_vect 0 autoShownState).PORTB % 128 = 127 - autoShownState.section1 ∧
      (TIMER0_OVF_vect 0 autoShownState).PORTD.testBit LED_COMMON_DIG1 = true) ∧
    ((TIMER0_OVF_vect 1 autoShownState).PORTB % 128 = autoShownState.section1 ∧
      (TIMER0_OVF_vect 1 autoShownState).PORTD.testBit LED_COMMON_DIG1 = false) :=
  have h := C12_drive_polarity autoShownState 1 (by decide) (by decide) (by decide) (by decide)
  ⟨h.1 rfl, h.2.2.1 rfl⟩

/-- C13: at both write points the store is asked once whether it is ready.
When it is not, the persisted byte is left as it was; when it is, the
persisted byte becomes the in-memory value (`spot_delay` after the action
release, `units` at the setup confirmation).  In both cases the in-memory
value and the other persisted byte are unchanged, for the write statements
and for the completed action branch and confirmation around them. -/
theorem C13_store_ready (fuel : Nat) (env : Env) (s s' t t' : State)
    (hv : s.spot_delay < 256) (hu : t.units < 256)
    (hact : actionBranch fuel env s = some s')
    (hconf : confirmSetup fuel env t = some t') :
    ((storeValue env s).saved_value
        = (if env.ee_ready s.nE then s.spot_delay else s.saved_value) ∧
      (storeValue env s).spot_delay = s.spot_delay ∧
      (storeValue env s).saved_step = s.saved_step ∧ (storeValue env s).nE = s.nE + 1) ∧
    ((storeStep env t).saved_step = (if env.ee_ready t.nE then t.units else t.saved_step) ∧
      (storeStep env t).units = t.units ∧
      (storeStep env t).saved_value = t.saved_value ∧ (storeStep env t).nE = t.nE + 1) ∧
    (s'.saved_value = (if env.ee_ready s.nE then s.spot_delay else s.saved_value) ∧
      s'.spot_delay = s.spot_delay ∧ s'.saved_step = s.saved_step ∧ s'.nE = s.nE + 1) ∧
    (t'.saved_step = (if env.ee_ready t.nE then t.units else t.saved_step) ∧
      t'.units = t.units ∧ t'.saved_value = t.saved_value ∧ t'.nE = t.nE + 1) := by
  have e8 : u8 s.spot_delay = s.spot_delay := Nat.mod_eq_of_lt hv
  have f8 : u8 t.units = t.units := Nat.mod_eq_of_lt hu
  have e := actionBranch_some hact
  have f := confirmSetup_some hconf
  refine ⟨?_, ?_, ?_, ?_⟩
  · cases hr : env.ee_ready s.nE <;> simp [storeValue, hr, e8]
  · cases hr : env.ee_ready t.nE <;> simp [storeStep, hr, f8]
  · refine ⟨?_, by rw [e], by rw [e], by rw [e]⟩
    rw [e, e8]
  · refine ⟨?_, by rw [f], by rw [f], by rw [f]⟩
    rw [f, f8]

/-- C13 with a store that is not ready: the action branch leaves `saved_value`
at 2 while `spot_delay` is 7, and the confirmation leaves `saved_step` at 1
while `units` is 2. -/
theorem C13_store_ready_witness :
    (unsavedAfterAction.saved_value = 2 ∧ unsavedAfterAction.spot_delay = 7) ∧
    (unsavedSetupDone.saved_step = 1 ∧ unsavedSetupDone.units = 2) :=
  have h := C13_store_ready 1 envNotReady unsavedState unsavedAfterAction unsavedSetupState
    unsavedSetupDone (by decide) (by decide) (by decide) (by decide)
  ⟨⟨h.2.2.1.1, h.2.2.1.2.1⟩, ⟨h.2.2.2.1, h.2.2.2.2.1⟩⟩

/-- C14: whenever `main` has completed its startup and any number of
iterations of its loop, the timing value is in 1..99 and the display buffers
hold its digits, `section1 = digit[spot_delay % 10]` and
`section2 = digit[spot_delay / 10]`.  The invariant is set up by the validated
load, kept by the repeat-rate logic for every combination of button reads, and
kept by every completed iteration. -/
theorem C14_loop_invariant (fuel : Nat) (env : Env) (n : Nat) (s0 s' : State)
    (hmain : main fuel env n s0 = some s') :
    (1 ≤ s'.spot_delay ∧ s'.spot_delay ≤ 99 ∧
      digit[s'.spot_delay % 10]? = some s'.section1 ∧
      digit[s'.spot_delay / 10]? = some s'.section2) ∧
    (∀ s, loopInv (enterLoop s)) ∧
    (∀ (e : Env) (s : State), loopInv s → loopInv (repeatLogic e s)) ∧
    (∀ s s1, loopInv s → mainIter fuel env s = some s1 → loopInv s1) := by
  obtain ⟨h1, h2, h3, h4⟩ := main_inv hmain
  refine ⟨⟨h1, h2, ?_, ?_⟩, enterLoop_inv, repeatLogic_inv, fun s s1 h hit => mainIter_inv h hit⟩
  · rw [h3]; exact digit_lookup _ (Nat.mod_lt _ (by decide))
  · rw [h4]; exact digit_lookup _ (by omega)

/-- C14 on a start from the persisted bytes 0 and 3 followed by two
iterations, and on a threshold iteration with plus and minus pressed
together. -/
theorem C14_loop_invariant_witness :
    (1 ≤ bootAfterTwo.spot_delay ∧ bootAfterTwo.spot_delay ≤ 99 ∧
      digit[bootAfterTwo.spot_delay % 10]? = some bootAfterTwo.section1 ∧
      digit[bootAfterTwo.spot_delay / 10]? = some bootAfterTwo.section2) ∧
    loopInv (repeatLogic envBoth bootThresholdState) :=
  have h := C14_loop_invariant 1 envReleased 2 (resetState 0 3) bootAfterTwo (by decide)
  ⟨h.1, h.2.2.1 envBoth bootThresholdState ⟨by decide, by decide, by decide, by decide⟩⟩

/-- C15: a tick always leaves `digselect` at 1 or 2 and flips it (1 to 2,
2 to 1), so from its initial value 1 it is 1 or 2 after every number of
ticks, and the main thread never writes it.  After a tick in auto mode the
common line of the digit that `digselect` selected before the tick is at its
enabled level and the other line is not, and the low 7 bits of the data port
carry that digit's buffer (`section1` for digit 1, `section2` for digit 2),
direct in the common-cathode build and complemented in the common-anode build;
the two lines are never enabled together. -/
theorem C15_refresh_alternation (polarity : Nat) (s : State) (n : Nat)
    (ha : s.auto_mode ≠ 0) (hd : s.digselect = 1 ∨ s.digselect = 2) :
    (∀ t : State, (TIMER0_OVF_vect polarity t).digselect = 1 ∨
      (TIMER0_OVF_vect polarity t).digselect = 2) ∧
    (s.digselect = 1 → (TIMER0_OVF_vect polarity s).digselect = 2) ∧
    (s.digselect = 2 → (TIMER0_OVF_vect polarity s).digselect = 1) ∧
    (((TIMER0_OVF_vect polarity)^[n] s).digselect = 1 ∨
      ((TIMER0_OVF_vect polarity)^[n] s).digselect = 2) ∧
    (∀ sv ss, (resetState sv ss).digselect = 1) ∧
    (∀ fuel env k s0 s1, main fuel env k s0 = some s1 → s1.digselect = s0.digselect) ∧
    (s.digselect = 1 →
      lineEnabled polarity (TIMER0_OVF_vect polarity s).PORTD LED_COMMON_DIG1 = true ∧
      lineEnabled polarity (TIMER0_OVF_vect polarity s).PORTD LED_COMMON_DIG2 = false ∧
      (TIMER0_OVF_vect polarity s).PORTB % 128
        = (if polarity ≠ 0 then s.section1 % 128 else 127 - s.section1 % 128)) ∧
    (s.digselect = 2 →
      lineEnabled polarity (TIMER0_OVF_vect polarity s).PORTD LED_COMMON_DIG2 = true ∧
      lineEnabled polarity (TIMER0_OVF_vect polarity s).PORTD LED_COMMON_DIG1 = false ∧
      (TIMER0_OVF_vect polarity s).PORTB % 128
        = (if polarity ≠ 0 then s.section2 % 128 else 127 - s.section2 % 128)) ∧
    ¬ (lineEnabled polarity (TIMER0_OVF_vect polarity s).PORTD LED_COMMON_DIG1 = true ∧
      lineEnabled polarity (TIMER0_OVF_vect polarity s).PORTD LED_COMMON_DIG2 = true) := by
  obtain ⟨l1, l2⟩ := tick_lines polarity s
  obtain ⟨d1, d2⟩ := tick_auto_low polarity s ha
  refine ⟨?_, ?_, ?_, tick_iterate_digselect polarity n s hd, fun _ _ => rfl,
    fun fuel env k s0 s1 h => (main_frame h).1, ?_, ?_, ?_⟩
  · intro t
    rw [tick_digselect]
    split_ifs
    · exact Or.inr rfl
    · exact Or.inl rfl
  · intro h1
    rw [tick_digselect, if_pos h1]
  · intro h2
    have n1 : ¬ s.digselect = 1 := by rw [h2]; decide
    rw [tick_digselect, if_neg n1]
  · intro h1
    exact ⟨(l1 h1).1, (l1 h1).2, d1 h1⟩
  · intro h2
    exact ⟨(l2 h2).1, (l2 h2).2, d2 h2⟩
  · rintro ⟨e1, e2⟩
    rcases hd with h | h
    · rw [(l1 h).2] at e2
      exact Bool.false_ne_true e2
    · rw [(l2 h).2] at e1
      exact Bool.false_ne_true e1

/-- C15 on a state in auto mode with digit 1 selected, in the build of the
source (`LED_POLARITY = 0`). -/
theorem C15_refresh_alternation_witness :
    (TIMER0_OVF_vect LED_POLARITY autoShownState).digselect = 2 ∧
    lineEnabled LED_POLARITY (TIMER0_OVF_vect LED_POLARITY autoShownState).PORTD
      LED_COMMON_DIG1 = true ∧
    lineEnabled LED_POLARITY (TIMER0_OVF_vect LED_POLARITY autoShownState).PORTD
      LED_COMMON_DIG2 = false :=
  have h := C15_refresh_alternation LED_POLARITY autoShownState 3 (by decide)
    (Or.inl rfl)
  ⟨h.2.1 rfl, (h.2.2.2.2.2.2.1 rfl).1, (h.2.2.2.2.2.2.1 rfl).2.1⟩

/-- C16: with `auto_mode` false a refresh tick loads the low 7 bits of the
data port with the same pattern for every `section1`, `section2` and
`digselect`: `0b1000000` in the common-cathode build and its complement in the
common-anode build, so exactly one of the seven segment lines (bit 6) differs
from the others; the common lines and `digselect` change as in auto mode. -/
theorem C16_indicator_mode (polarity : Nat) (s : State) (hm : s.auto_mode = 0) :
    (TIMER0_OVF_vect polarity s).PORTB % 128
      = (if polarity ≠ 0 then 0b1000000 else 127 - 0b1000000) ∧
    (∀ i, i < 7 → (TIMER0_OVF_vect polarity s).PORTB.testBit i
      = (if polarity ≠ 0 then decide (i = 6) else !decide (i = 6))) ∧
    (∀ t : State, t.auto_mode = 0 →
      (TIMER0_OVF_vect polarity t).PORTB % 128 = (TIMER0_OVF_vect polarity s).PORTB % 128) ∧
    (TIMER0_OVF_vect polarity s).PORTD
      = (TIMER0_OVF_vect polarity { s with auto_mode := 1 }).PORTD ∧
    (TIMER0_OVF_vect polarity s).digselect
      = (TIMER0_OVF_vect polarity { s with auto_mode := 1 }).digselect ∧
    (s.digselect = 1 →
      lineEnabled polarity (TIMER0_OVF_vect polarity s).PORTD LED_COMMON_DIG1 = true ∧
      lineEnabled polarity (TIMER0_OVF_vect polarity s).PORTD LED_COMMON_DIG2 = false) ∧
    (s.digselect = 2 →
      lineEnabled polarity (TIMER0_OVF_vect polarity s).PORTD LED_COMMON_DIG2 = true ∧
      lineEnabled polarity (TIMER0_OVF_vect polarity s).PORTD LED_COMMON_DIG1 = false) := by
  have hlow := tick_manual_low polarity s hm
  refine ⟨hlow, ?_, ?_, ?_, ?_, (tick_lines polarity s).1, (tick_lines polarity s).2⟩
  · intro i hi
    have hb : (TIMER0_OVF_vect polarity s).PORTB.testBit i
        = ((TIMER0_OVF_vect polarity s).PORTB % 2 ^ 7).testBit i := by
      rw [Nat.testBit_mod_two_pow]
      simp [hi]
    have e : (2 : Nat) ^ 7 = 128 := rfl
    rw [hb, e, hlow]
    by_cases hp : polarity = 0
    · have e63 : (127 - 0b1000000 : Nat) = 2 ^ 6 - 1 := rfl
      simp only [hp, ne_eq, not_true_eq_false, if_false]
      rw [e63, Nat.testBit_two_pow_sub_one]
      by_cases h6 : i = 6
      · subst h6; decide
      · have : i < 6 := by omega
        simp [this, h6]
    · have e64 : (0b1000000 : Nat) = 2 ^ 6 := rfl
      simp only [hp, ne_eq, not_false_eq_true, if_true]
      rw [e64, Nat.testBit_two_pow]
      by_cases h6 : i = 6
      · subst h6; decide
      · have : ¬ 6 = i := fun h => h6 h.symm
        simp [this, h6]
  · intro t ht
    rw [tick_manual_low polarity t ht, hlow]
  · rw [TIMER0_OVF_vect_eq, TIMER0_OVF_vect_eq]
  · rw [TIMER0_OVF_vect_eq, TIMER0_OVF_vect_eq]

/-- C16 in manual mode with the digit 2 in `section1`: the data port carries
the indicator, in the build of the source and in the other one. -/
theorem C16_indicator_mode_witness :
    (TIMER0_OVF_vect 0 manualShownState).PORTB % 128 = 127 - 0b1000000 ∧
    (TIMER0_OVF_vect 1 manualShownState).PORTB % 128 = 0b1000000 :=
  ⟨(C16_indicator_mode 0 manualShownState (by decide)).1,
   (C16_indicator_mode 1 manualShownState (by decide)).1⟩

/-- C17: the repeat-rate logic changes `auto_mode` only in the threshold
branch (first-stage counter at `BTN_1ST_DELAY`, or fast mode on and
second-stage counter at `BTN_2ST_DELAY`): below the threshold `auto_mode` is
unchanged whatever the mode button reads, and at the threshold it is negated
once when the read of the mode button shows it pressed and unchanged
otherwise.  The same holds for every completed iteration of the main loop,
whose action step changes neither `auto_mode` nor the threshold condition. -/
theorem C17_mode_gated (fuel : Nat) (env : Env) (s s' : State)
    (hit : mainIter fuel env s = some s') :
    (∀ (e : Env) (t : State),
      (threshold t = false → (repeatLogic e t).auto_mode = t.auto_mode) ∧
      (threshold t = true → (repeatLogic e t).auto_mode
        = (if ButtonPressed (u8 (e.pind t.nD)) BTN_MODE_BIT ≠ 0 then lnot t.auto_mode
           else t.auto_mode))) ∧
    (threshold s = false → s'.auto_mode = s.auto_mode) ∧
    (threshold s = true →
      ∃ s1, actionStep fuel env (delay_ms BTN_CYCLE_DELAY s) = some s1 ∧
        s'.auto_mode
          = (if ButtonPressed (u8 (env.pind s1.nD)) BTN_MODE_BIT ≠ 0 then lnot s.auto_mode
             else s.auto_mode)) := by
  simp only [mainIter, Option.map_eq_some'] at hit
  obtain ⟨s1, h1, rfl⟩ := hit
  obtain ⟨a1, a2⟩ := actionStep_some h1
  have ht : threshold s1 = threshold s := a2
  have ha : s1.auto_mode = s.auto_mode := a1
  refine ⟨repeatLogic_auto_mode, ?_, ?_⟩
  · intro hth
    rw [(repeatLogic_auto_mode env s1).1 (ht.trans hth), ha]
  · intro hth
    refine ⟨s1, h1, ?_⟩
    rw [(repeatLogic_auto_mode env s1).2 (ht.trans hth), ha]

/-- C17 on two iterations in which every button reads pressed but the action
button: at the threshold `auto_mode` is negated, between thresholds it is
not. -/
theorem C17_mode_gated_witness :
    (repeatLogic envAllAdjust { bootThresholdState with nD := 41 }).auto_mode = 0 ∧
    (repeatLogic envAllAdjust { bootDemoState with nD := 41 }).auto_mode = 1 :=
  have h := C17_mode_gated 0 envAllAdjust bootThresholdState
    (repeatLogic envAllAdjust { delay_ms 1 bootThresholdState with nD := 41 }) (by decide)
  ⟨(h.1 envAllAdjust { bootThresholdState with nD := 41 }).2 (by decide),
   (h.1 envAllAdjust { bootDemoState with nD := 41 }).1 (by decide)⟩

/-! ### C18: the display buffers never hold a value with bit 7 set -/

/-- C18: every value stored in `section1` or `section2` is below 128. The
write sites are covered one by one: every entry of the digit table (and every
lookup `digitAt i`), the patterns `1<<0 .. 1<<5` of the startup chase and of
the running light of `saved()`, the letter pattern `0b1111000` written together
with `digit[units]` in the setup menu and the splash, and the blank `0`. These
bounds are then carried through the code: every state of the startup chase
(after any number of its iterations), every state of the running light, the
state in which the setup menu returns, the state after the splash, the state
after any `ChangeDelay`, the state after one iteration of the main loop, and
the state of `main` after any number of iterations of its loop all have both
buffers below 128. -/
theorem C18_buffers_below_128 (fuel : Nat) (env : Env) (n : Nat) (s0 s' : State)
    (hmain : main fuel env n s0 = some s') :
    (∀ p, p ∈ digit → p < 128) ∧
    (∀ i, digitAt i < 128) ∧
    (∀ off, off ≤ 5 → u8 (1 <<< off) < 128) ∧
    (∀ s : State, buffersOk { s with section2 := 0b1111000, section1 := digitAt s.units }) ∧
    (∀ s : State, buffersOk { s with section2 := 0, section1 := 0 }) ∧
    (∀ k sv ss,
      buffersOk (startupSelect env k 0 0 0 0 (loadUnits (pullUps (resetState sv ss)))).2) ∧
    (∀ k off s, buffersOk s → buffersOk (savedLoop k off s)) ∧
    (∀ s t, buffersOk s → setupMenu env fuel s = some t → buffersOk t) ∧
    (∀ s, buffersOk (splash s)) ∧
    (∀ v s, buffersOk (ChangeDelay v s)) ∧
    (∀ s t, buffersOk s → mainIter fuel env s = some t → buffersOk t) ∧
    buffersOk s' := by
  refine ⟨digit_lt, digitAt_lt, shift_lt, ?_, ?_, ?_, savedLoop_buffers, ?_, ?_,
    ChangeDelay_buffers, ?_, main_buffers hmain⟩
  · intro s
    exact ⟨digitAt_lt _, (by decide : 0b1111000 < 128)⟩
  · intro s
    exact ⟨(by decide : 0 < 128), (by decide : 0 < 128)⟩
  · intro k sv ss
    exact startupSelect_buffers env k 0 0 0 0 _ (by decide) (by decide)
      ⟨(by decide : 0 < 128), (by decide : 0 < 128)⟩
  · intro s t hs ht
    exact setupMenu_buffers env fuel s t hs ht
  · intro s
    rw [splash_eq]
    exact ⟨(by decide : 0 < 128), (by decide : 0 < 128)⟩
  · intro s t hs ht
    exact mainIter_buffers hs ht

/-- C18 on a concrete run: booting with the stored timing value 0 and the
stored resolution 3 and running two iterations of the main loop with all
buttons released ends with both display buffers below 128. -/
theorem C18_buffers_below_128_witness :
    main 1 envReleased 2 (resetState 0 3) = some bootAfterTwo ∧
    bootAfterTwo.section1 < 128 ∧ bootAfterTwo.section2 < 128 :=
  ⟨by decide,
   (C18_buffers_below_128 1 envReleased 2 (resetState 0 3) bootAfterTwo (by decide)).2.2.2.2.2.2.2.2.2.2.2⟩

/-! ### C19: the frame of the display refresh tick -/

/-- C19: for either build polarity and every state with `digselect` 1 or 2 and
both buffers below 128, one run of the refresh handler leaves every bit of
`PORTD` other than the two common lines (bits 5 and 6) as it was, in
particular the welder output bit 0 and the button pull-up bits 1..4; and if
bit 7 of `PORTB` (the zero-cross pull-up) was set before the tick it is set
after it, so that only bits 0..6 of `PORTB` change. Both registers stay 8-bit
values. The proviso on bit 7 is what the common-anode build needs: there the
tick sets bit 7 whatever it was before, while in a common-cathode build bit 7
is kept in either case. The pull-up is set at the start of `main` and `PORTB`
is not written by the main thread afterwards, so the proviso holds in every
state `main` reaches. -/
theorem C19_tick_frame (polarity : Nat) (s : State)
    (hd : s.digselect = 1 ∨ s.digselect = 2)
    (h1 : s.section1 < 128) (h2 : s.section2 < 128) :
    (∀ i, i < 8 → i ≠ LED_COMMON_DIG2 → i ≠ LED_COMMON_DIG1 →
      (TIMER0_OVF_vect polarity s).PORTD.testBit i = s.PORTD.testBit i) ∧
    (TIMER0_OVF_vect polarity s).PORTD.testBit OUT_SIGNAL_BIT
      = s.PORTD.testBit OUT_SIGNAL_BIT ∧
    (∀ b, b ∈ [BTN_PLUS_BIT, BTN_MODE_BIT, BTN_MINUS_BIT, BTN_ACTION_BIT] →
      (TIMER0_OVF_vect polarity s).PORTD.testBit b = s.PORTD.testBit b) ∧
    (s.PORTB.testBit ZCROSSDETECT_BIT = true →
      (TIMER0_OVF_vect polarity s).PORTB.testBit ZCROSSDETECT_BIT = true) ∧
    (s.PORTB < 256 → s.PORTD < 256 →
      (TIMER0_OVF_vect polarity s).PORTB < 256 ∧ (TIMER0_OVF_vect polarity s).PORTD < 256) ∧
    (polarity = 0 → (TIMER0_OVF_vect polarity s).PORTB.testBit ZCROSSDETECT_BIT = true) ∧
    (polarity ≠ 0 → (TIMER0_OVF_vect polarity s).PORTB.testBit ZCROSSDETECT_BIT
      = s.PORTB.testBit ZCROSSDETECT_BIT) ∧
    (∀ fuel env n s0 t, main fuel env n s0 = some t →
      t.PORTB.testBit ZCROSSDETECT_BIT = true) := by
  refine ⟨?_, ?_, ?_, ?_, ?_, ?_, ?_, ?_⟩
  · intro i hi h5 h6
    exact tick_PORTD_frame polarity s i hi h6 h5
  · exact tick_PORTD_frame polarity s _ (by decide) (by decide) (by decide)
  · intro b hb
    simp only [List.mem_cons, List.mem_singleton, List.not_mem_nil, or_false] at hb
    rcases hb with rfl | rfl | rfl | rfl <;>
      exact tick_PORTD_frame polarity s _ (by decide) (by decide) (by decide)
  · exact tick_PORTB_bit7 polarity s
  · exact tick_ports_lt polarity s
  · intro hp
    subst hp
    exact tick_PORTB_bit7_anode s hd h1 h2
  · intro hp
    exact tick_PORTB_bit7_cathode polarity hp s h1 h2
  · intro fuel env n s0 t ht
    rw [(main_frame ht).2]
    exact pullUps_bit7 s0

/-- C19 on a concrete state: a tick of the common-anode build in the state
reached after boot and two idle iterations of the main loop turns `PORTD` from
`0b00011110` into `0b01011110` (bit 6 only) and `PORTB` from `0b10000000` into
`0b11000000` (bit 7 still set). -/
theorem C19_tick_frame_witness :
    (bootAfterTwo.digselect = 1 ∨ bootAfterTwo.digselect = 2) ∧
    bootAfterTwo.section1 < 128 ∧ bootAfterTwo.section2 < 128 ∧
    bootAfterTwo.PORTD = 0b00011110 ∧ bootAfterTwo.PORTB = 0b10000000 ∧
    (TIMER0_OVF_vect 0 bootAfterTwo).PORTD = 0b01011110 ∧
    (TIMER0_OVF_vect 0 bootAfterTwo).PORTB = 0b11000000 ∧
    (TIMER0_OVF_vect 0 bootAfterTwo).PORTD.testBit OUT_SIGNAL_BIT
      = bootAfterTwo.PORTD.testBit OUT_SIGNAL_BIT ∧
    (TIMER0_OVF_vect 0 bootAfterTwo).PORTB.testBit ZCROSSDETECT_BIT = true :=
  have h := C19_tick_frame 0 bootAfterTwo (by decide) (by decide) (by decide)
  ⟨by decide, by decide, by decide, by decide, by decide, by decide, by decide,
    h.2.1, h.2.2.2.1 (by decide)⟩

/-! ### C20: every lookup in the digit table is in bounds -/

/-- C20: the digit table has 10 entries, and a checked lookup fails at every
index from 10 on. For every argument `value` (in particular every
`unsigned char`) the checked `ChangeDelay` never fails and gives the state of
`ChangeDelay`, with arguments above 99 displayed as 99. The resolution loaded
at startup is 1 or 2 and the toggle of the setup menu maps a resolution of 1
or 2 to one of 1 or 2; so from a state `s` whose resolution is 1 or 2 the
checked setup menu and the checked splash never fail and agree with the setup
menu and the splash, and the whole startup, from any initial state and with
any number of reads granted to its wait loops, runs without a failing lookup
and agrees with `startup`. -/
theorem C20_digit_index_in_bounds (fuel : Nat) (env : Env) (value : Nat) (s : State)
    (hu : s.units = 1 ∨ s.units = 2) :
    digit.length = 10 ∧
    (∀ i, 10 ≤ i → digitChecked i = Except.error i) ∧
    (∀ t, ChangeDelayChecked value t = Except.ok (ChangeDelay value t)) ∧
    (∀ t, 99 < value → ChangeDelay value t = ChangeDelay 99 t) ∧
    (∀ s0 : State, (loadUnits s0).units = 1 ∨ (loadUnits s0).units = 2) ∧
    ((toggleUnits s).units = 1 ∨ (toggleUnits s).units = 2) ∧
    setupMenuChecked env fuel s = Except.ok (setupMenu env fuel s) ∧
    splashChecked s = Except.ok (splash s) ∧
    (∀ e, setupOrSplashChecked fuel env e s = Except.ok (setupOrSplash fuel env e s)) ∧
    (∀ s0, startupChecked fuel env s0 = Except.ok (startup fuel env s0)) := by
  refine ⟨rfl, digitChecked_error, ChangeDelayChecked_ok value, ?_, loadUnits_valid,
    toggleUnits_valid s hu, setupMenuChecked_ok env fuel s hu, splashChecked_ok s hu,
    fun e => setupOrSplashChecked_ok fuel env e s hu, startupChecked_ok fuel env⟩
  intro t hv
  have h99 : ¬ (99 > 99) := by decide
  simp only [ChangeDelay, if_pos hv, if_neg h99]

/-- C20 on concrete inputs: from the state entering the setup menu with the
stored resolution 1, with the mode button pressed in the second pass, the
checked setup menu passes the lookup of the first pass and returns the state
`setupLateDone`; the checked splash from the same state succeeds; and
`ChangeDelay(255)` looks up position 9 twice. -/
theorem C20_digit_index_in_bounds_witness :
    (setupDemoState.units = 1 ∨ setupDemoState.units = 2) ∧
    setupMenuChecked envSetupLate 3 setupDemoState = Except.ok (some setupLateDone) ∧
    splashChecked setupDemoState = Except.ok (splash setupDemoState) ∧
    ChangeDelayChecked 255 setupDemoState
      = Except.ok { setupDemoState with section1 := 111, section2 := 111 } :=
  have h := C20_digit_index_in_bounds 3 envSetupLate 255 setupDemoState (by decide)
  ⟨by decide,
   h.2.2.2.2.2.2.1.trans (congrArg Except.ok (by decide)),
   h.2.2.2.2.2.2.2.1,
   (h.2.2.1 setupDemoState).trans (congrArg Except.ok (by decide))⟩

end Spotter
